import Mathlib

/-!
Verification of the resolver core of the oxc-resolver repository
(`src/src/lib.rs`) against its natural-language specification.

The embedding is shallow and executable:

* Strings from the Rust code are modelled as `Str := List Char` so that every
  operation is a structural recursion the kernel can evaluate.  The Rust code
  mixes byte lengths and char indices; for the ASCII keys and specifiers the
  resolver manipulates the two coincide, and the model uses char counts
  throughout.
* Absolute, lexically normalized paths are modelled as `Path := List Str`
  (the list of components); `[]` is the filesystem root.
* The file system is a snapshot: a set of file paths, a set of directory
  paths, and a map from directories to parsed `package.json` documents.
  It contains no symlinks, so `canonicalize` is the identity.
* The per-call mutable context (`&mut Ctx` in Rust) is threaded explicitly:
  a function of Rust type `fn(&self, .., &mut Ctx) -> Result<T, ResolveError>`
  becomes a Lean function returning `Except ResolveError T × Ctx`.
* The recursion guard (`Ctx::test_for_infinite_recursion`, a depth counter
  capped at a fixed limit, from `context.rs`) is modelled as an explicit fuel
  argument.  For uniformity every function of the mutually recursive resolver
  consumes one unit of fuel on entry and runs out with `ResolveError.recursion`;
  on any execution the source terminates on, the model computes the source's
  answer for every sufficiently large fuel.
* Components of the repository that live outside `src/` (the cache, the
  context, the specifier parser, the package-json and tsconfig models, the
  path utilities) are modelled from the specification; their definitions carry
  a `Modelled from the spec` note.  Everything else is translated directly
  from `src/src/lib.rs` and keeps the source's names.
-/

namespace Oxc

/-- Strings of the Rust source, as evaluable lists of characters. -/
abbrev Str := List Char

/-- Paths are absolute and lexically normalized: the list of components. -/
abbrev Path := List Str

/-! ### Primitive string operations (models of `str` methods used by lib.rs) -/

/-- Model of `str::starts_with`. -/
def hasPre (pre s : Str) : Bool :=
  match pre, s with
  | [], _ => true
  | _ :: _, [] => false
  | c :: pre, d :: s => c == d && hasPre pre s

/-- Model of `str::strip_prefix`. -/
def dropPre (pre s : Str) : Option Str :=
  match pre, s with
  | [], s => some s
  | _ :: _, [] => none
  | c :: pre, d :: s => if c = d then dropPre pre s else none

/-- Model of `str::ends_with`. -/
def hasSuf (suf s : Str) : Bool :=
  hasPre suf.reverse s.reverse

/-- Model of `str::strip_suffix`. -/
def dropSuf (suf s : Str) : Option Str :=
  (dropPre suf.reverse s.reverse).map List.reverse

/-- Model of `str::contains(char)`. -/
def containsChar (ch : Char) : Str → Bool
  | [] => false
  | c :: s => c == ch || containsChar ch s

/-- Number of occurrences of a character, as `str::match_indices(ch).count()`. -/
def countChar (ch : Char) : Str → Nat
  | [] => 0
  | c :: s => (if c = ch then 1 else 0) + countChar ch s

/-- Model of `str::contains(&str)` (substring search). -/
def containsSub (needle : Str) : Str → Bool
  | [] => hasPre needle []
  | c :: rest => hasPre needle (c :: rest) || containsSub needle rest

/-- Index of the first occurrence of a character, as `chars().position`. -/
def charIdx (ch : Char) : Str → Option Nat
  | [] => none
  | c :: s => if c = ch then some 0 else (charIdx ch s).map (· + 1)

/-- Index of the last occurrence of a character. -/
def lastCharIdx (ch : Char) (s : Str) : Option Nat :=
  (charIdx ch s.reverse).map (fun j => s.length - 1 - j)

/-- Model of `str::split_once(char)`. -/
def splitFirst (ch : Char) : Str → Option (Str × Str)
  | [] => none
  | c :: s =>
    if c = ch then some ([], s)
    else (splitFirst ch s).map (fun (a, b) => (c :: a, b))

/-- Model of `str::split(char)` collected into a list. -/
def splitOnChar (sep : Char) : Str → List Str
  | [] => [[]]
  | c :: rest =>
    if c = sep then [] :: splitOnChar sep rest
    else
      match splitOnChar sep rest with
      | [] => [[c]]
      | h :: t => (c :: h) :: t

/-- Interleave a separator character between the pieces. -/
def intercalateChar (sep : Char) : List Str → Str
  | [] => []
  | [x] => x
  | x :: rest => x ++ sep :: intercalateChar sep rest

/-- Model of `str::trim_start_matches(char)`. -/
def trimStartChar (ch : Char) : Str → Str
  | [] => []
  | c :: s => if c = ch then trimStartChar ch s else c :: s

/-- Model of `str::replacen(char, s, 1)`: replace the first occurrence. -/
def replaceFirstChar (ch : Char) (rep : Str) : Str → Str
  | [] => []
  | c :: s => if c = ch then rep ++ s else c :: replaceFirstChar ch rep s

/-- Model of `str::replace(char, s)`: replace every occurrence. -/
def replaceAllChar (ch : Char) (rep : Str) : Str → Str
  | [] => []
  | c :: s => if c = ch then rep ++ replaceAllChar ch rep s else c :: replaceAllChar ch rep s

/-! ### Path utilities (Modelled from the spec: `path.rs` is not under `src/`;
spec section 2 "Path utilities: lexical normalization, relative join,
invalid-target detection, slash semantics".) -/

/-- Parent of a path: `None` at the root, otherwise drop the last component. -/
def parentPath : Path → Option Path
  | [] => none
  | p => some p.dropLast

/-- Last component of a path. -/
def lastComp : Path → Option Str
  | [] => none
  | p => some p.getLast!

/-- Apply relative components to a base path (`.` and empty skip, `..` pops). -/
def applyComponents (base : Path) : List Str → Path
  | [] => base
  | c :: rest =>
    if c = [] ∨ c = ['.'] then applyComponents base rest
    else if c = ['.', '.'] then applyComponents base.dropLast rest
    else applyComponents (base ++ [c]) rest

/-- Model of `CachedPath::normalize_with`: lexically join a specifier onto a path. -/
def normalize_with (base : Path) (spec : Str) : Path :=
  applyComponents base (splitOnChar '/' spec)

/-- Convert a specifier string to an absolute normalized path (model of
`Cache::value(Path::new(s))` for absolute `s`). -/
def strToPath (s : Str) : Path :=
  normalize_with [] s

/-- Render a path back to a string, as `Path::to_string_lossy` on POSIX. -/
def pathToStr (p : Path) : Str :=
  '/' :: intercalateChar '/' p

/-- Normalize a relative specifier lexically, keeping surplus `..` components
(model of `Path::normalize_relative` used by the legacy `../..` retry). -/
def normalizeRelativeComponents (acc : List Str) : List Str → List Str
  | [] => acc
  | c :: rest =>
    if c = [] ∨ c = ['.'] then normalizeRelativeComponents acc rest
    else if c = ['.', '.'] then
      match acc.getLast? with
      | some l => if l = ['.', '.'] then normalizeRelativeComponents (acc ++ [c]) rest
                  else normalizeRelativeComponents acc.dropLast rest
      | none => normalizeRelativeComponents (acc ++ [c]) rest
    else normalizeRelativeComponents (acc ++ [c]) rest

/-- Model of `Path::new(s).normalize_relative()` rendered back to a string. -/
def normalizeRelative (s : Str) : Str :=
  intercalateChar '/' (normalizeRelativeComponents [] (splitOnChar '/' s))

/-- Component-wise path prefix test, as Rust `Path::starts_with`. -/
def pathBeginsWith (parent p : Path) : Bool :=
  match parent, p with
  | [], _ => true
  | _ :: _, [] => false
  | c :: parent, d :: p => c == d && pathBeginsWith parent p

/-- Component-wise path suffix test, as Rust `Path::ends_with`. -/
def pathEndsWith (suffix p : Path) : Bool :=
  pathBeginsWith suffix.reverse p.reverse

/-- Relative components of a specifier string, for `Path::ends_with(Path::new(s))`. -/
def relComps (s : Str) : List Str :=
  (splitOnChar '/' s).filter (fun c => !(c == [] || c == ['.']))

/-- Model of `Path::extension`: the part of the file name after its last dot,
`None` when there is no dot or the name starts with its only dot. -/
def extOf (c : Str) : Option Str :=
  match lastCharIdx '.' c with
  | none => none
  | some 0 => none
  | some i => some (c.drop (i + 1))

/-- Extension of the last component of a path. -/
def pathExtension (p : Path) : Option Str :=
  (lastComp p).bind extOf

/-- Model of `CachedPath::add_extension`: append `ext` to the file name. -/
def add_extension (p : Path) (ext : Str) : Path :=
  match p with
  | [] => [ext]
  | _ => p.dropLast ++ [p.getLast! ++ ext]

/-- File name with its extension (dot included) removed, `Path::with_extension("")`. -/
def stemWithoutExt (c : Str) : Str :=
  match lastCharIdx '.' c with
  | none => c
  | some 0 => c
  | some i => c.take i

/-- Model of `CachedPath::replace_extension`: swap the file-name extension. -/
def replace_extension (p : Path) (ext : Str) : Path :=
  match p with
  | [] => [ext]
  | _ => p.dropLast ++ [stemWithoutExt p.getLast! ++ ext]

/-- Model of `CachedPath::is_node_modules`. -/
def is_node_modules (p : Path) : Bool :=
  lastComp p == some "node_modules".toList

/-- Model of `CachedPath::inside_node_modules`. -/
def inside_node_modules (p : Path) : Bool :=
  p.contains "node_modules".toList

/-- Model of `Path::is_invalid_exports_target`: an empty, `.`, `..` or
`node_modules` segment after the first segment invalidates the target
(spec section 4.6). -/
def is_invalid_exports_target (t : Str) : Bool :=
  ((splitOnChar '/' t).drop 1).any
    (fun c => c == [] || c == ['.'] || c == ['.', '.'] || c == "node_modules".toList)

/-! ### Specifier parser (Modelled from the spec: `specifier.rs` is not under
`src/`; spec section 4.3: the first unescaped `?` begins the query, the first
unescaped `#` begins the fragment, `\0#` escapes a literal `#`, a leading `#`
belongs to the path so that `#imports` specifiers survive parsing, and an
empty specifier is an error.) -/

inductive SpecifierError where
  | empty (s : Str)
deriving DecidableEq, Repr

structure Specifier where
  path : Str
  query : Option Str
  fragment : Option Str
deriving DecidableEq, Repr

/-- Scan the part of a query after `?` for a fragment start. -/
def scanQuery : Str → Str × Option Str
  | [] => ([], none)
  | '#' :: rest => ([], some ('#' :: rest))
  | c :: rest =>
    let (q, f) := scanQuery rest
    (c :: q, f)

/-- Scan a specifier body for path, query and fragment, honouring `\0#`. -/
def scanSpec : Str → Str × Option Str × Option Str
  | [] => ([], none, none)
  | '?' :: rest =>
    let (q, f) := scanQuery rest
    ([], some ('?' :: q), f)
  | '\x00' :: '#' :: rest =>
    let (p, q, f) := scanSpec rest
    ('\x00' :: '#' :: p, q, f)
  | '#' :: rest => ([], none, some ('#' :: rest))
  | c :: rest =>
    let (p, q, f) := scanSpec rest
    (c :: p, q, f)

/-- Model of `Specifier::parse`. -/
def specifierParse (s : Str) : Except SpecifierError Specifier :=
  match s with
  | [] => .error (.empty [])
  | '#' :: rest =>
    let (p, q, f) := scanSpec rest
    .ok { path := '#' :: p, query := q, fragment := f }
  | s =>
    let (p, q, f) := scanSpec s
    .ok { path := p, query := q, fragment := f }

/-! ### Error taxonomy (Modelled from the spec: `error.rs` is not under `src/`;
spec section 7 enumerates the kinds.  Only the payloads `lib.rs` constructs
are modelled.) -/

inductive ResolveError where
  | notFound (s : Str)
  | ignored (p : Path)
  | builtin (resolved : Str) (isRuntimeModule : Bool)
  | recursion
  | specifier (e : SpecifierError)
  | pathNotSupported (s : Str)
  | invalidPackageConfig (p : Path)
  | invalidPackageConfigDirectory (p : Path)
  | packagePathNotExported (s : Str) (p : Path)
  | packageImportNotDefined (s : Str) (p : Path)
  | invalidPackageTarget (t : Str) (k : Str) (p : Path)
  | invalidModuleSpecifier (s : Str) (p : Path)
  | extensionAlias (filename : Str) (tried : Str) (dir : Path)
  | matchedAliasNotFound (s : Str) (k : Str)
  | tsconfigNotFound (p : Path)
deriving DecidableEq, Repr

/-- Model of `ResolveError::is_ignore` (spec section 7: `Ignored` is terminal). -/
def ResolveError.is_ignore : ResolveError → Bool
  | .ignored _ => true
  | _ => false

/-! ### Package.json model (Modelled from the spec: `package_json.rs` is not
under `src/`; spec sections 3 and 6 describe the parsed view: `name`, `type`,
`main` candidates per main-field path, `exports` entries per exports-field
path, `imports` maps, and a browser-field lookup.  Objects preserve insertion
order, which the association lists below do.) -/

inductive PackageType where
  | module
  | commonjs
deriving DecidableEq, Repr

inductive ModuleType where
  | module
  | commonjs
  | json
  | wasm
  | addon
deriving DecidableEq, Repr

/-- A `package.json` `exports`/`imports` value: string, object, array or null. -/
inductive ImportsExportsEntry where
  | str (s : Str)
  | map (es : List (Str × ImportsExportsEntry))
  | arr (xs : List ImportsExportsEntry)
  | null

/-- Model of `ImportsExportsEntry::as_string`. -/
def ImportsExportsEntry.as_string : ImportsExportsEntry → Option Str
  | .str s => some s
  | _ => none

/-- Model of `ImportsExportsEntry::as_map` (keys in insertion order). -/
def ImportsExportsEntry.as_map : ImportsExportsEntry → Option (List (Str × ImportsExportsEntry))
  | .map es => some es
  | _ => none

/-- Model of `ImportsExportsEntry::as_array`. -/
def ImportsExportsEntry.as_array : ImportsExportsEntry → Option (List ImportsExportsEntry)
  | .arr xs => some xs
  | _ => none

/-- Whether the entry kind is `String` or `Array` (step 2 of the `.` export). -/
def ImportsExportsEntry.isStringOrArray : ImportsExportsEntry → Bool
  | .str _ => true
  | .arr _ => true
  | _ => false

/-- Ordered association-list lookup with `Str` keys. -/
def alistGet (k : Str) : List (Str × α) → Option α
  | [] => none
  | (k', v) :: rest => if k' = k then some v else alistGet k rest

/-- Ordered association-list lookup with `Path` keys. -/
def palistGet (k : Path) : List (Path × α) → Option α
  | [] => none
  | (k', v) :: rest => if k' = k then some v else palistGet k rest

/-- Parsed `package.json` document. -/
structure PackageJson where
  name : Option Str := none
  ptype : Option PackageType := none
  mains : List (Str × Str) := []
  exports : List (Str × ImportsExportsEntry) := []
  imports : List (Str × List (Str × ImportsExportsEntry)) := []
  browser : List (Str × Str) := []

/-- Model of `PackageJson::main_fields`: the `main`-like values for the
configured field names, in configuration order. -/
def PackageJson.main_fields (pj : PackageJson) (fields : List Str) : List Str :=
  fields.filterMap (fun f => alistGet f pj.mains)

/-- Model of `PackageJson::exports_fields`. -/
def PackageJson.exports_fields (pj : PackageJson) (fields : List Str) :
    List ImportsExportsEntry :=
  fields.filterMap (fun f => alistGet f pj.exports)

/-- Model of `PackageJson::imports_fields` (each value is an object map). -/
def PackageJson.imports_fields (pj : PackageJson) (fields : List Str) :
    List (List (Str × ImportsExportsEntry)) :=
  fields.filterMap (fun f => alistGet f pj.imports)

/-- Model of `PackageJson::resolve_browser_field` (spec section 4.6): when
alias fields are configured, map the module specifier (for bare imports) or
the stringified current path through the browser map. -/
def PackageJson.resolve_browser_field (pj : PackageJson) (path : Path)
    (module_specifier : Option Str) (alias_fields : List Str) : Option Str :=
  if alias_fields.isEmpty then none
  else alistGet (module_specifier.getD (pathToStr path)) pj.browser

/-! ### File system snapshot and per-call context -/

/-- In-memory snapshot of the file system: files, directories, and parsed
`package.json` documents keyed by their directory.  (Modelled from the spec:
the `FileSystem` port and `Cache` live outside `src/`; spec sections 4.1-4.2.) -/
structure FileSystemModel where
  files : List Path := []
  dirs : List Path := []
  pkg_jsons : List (Path × PackageJson) := []

/-- Per-call mutable context (Modelled from the spec: `context.rs` is not
under `src/`; spec section 9 "Per-call mutable context": `fully_specified`
override, query/fragment, in-progress alias specifier, lazily initialized
dependency sets.  The recursion counter is the explicit fuel argument.) -/
structure Ctx where
  fully_specified : Bool := false
  query : Option Str := none
  fragment : Option Str := none
  resolving_alias : Option Str := none
  file_dependencies : Option (List Path) := none
  missing_dependencies : Option (List Path) := none
deriving DecidableEq, Repr

/-- Model of `Ctx::default()`. -/
def Ctx.default : Ctx := {}

def Ctx.with_fully_specified (ctx : Ctx) (yes : Bool) : Ctx :=
  { ctx with fully_specified := yes }

def Ctx.with_query_fragment (ctx : Ctx) (q f : Option Str) : Ctx :=
  { ctx with query := q, fragment := f }

def Ctx.with_resolving_alias (ctx : Ctx) (s : Str) : Ctx :=
  { ctx with resolving_alias := some s }

def Ctx.add_file_dependency (ctx : Ctx) (p : Path) : Ctx :=
  { ctx with file_dependencies := ctx.file_dependencies.map (· ++ [p]) }

def Ctx.add_missing_dependency (ctx : Ctx) (p : Path) : Ctx :=
  { ctx with missing_dependencies := ctx.missing_dependencies.map (· ++ [p]) }

/-- Model of `Ctx::init_file_dependencies` used by `resolve_with_context`. -/
def Ctx.init_file_dependencies (ctx : Ctx) : Ctx :=
  { ctx with file_dependencies := some [], missing_dependencies := some [] }

/-- Model of `Cache::is_file` (spec section 4.2): probe the snapshot and record
the path into `file_dependencies` when present, `missing_dependencies` when
absent. -/
def cacheIsFile (fs : FileSystemModel) (p : Path) (ctx : Ctx) : Bool × Ctx :=
  if fs.files.contains p then (true, ctx.add_file_dependency p)
  else (false, ctx.add_missing_dependency p)

/-- Model of `Cache::is_dir` (spec section 4.2), recording like `is_file`. -/
def cacheIsDir (fs : FileSystemModel) (p : Path) (ctx : Ctx) : Bool × Ctx :=
  if fs.dirs.contains p then (true, ctx.add_file_dependency p)
  else (false, ctx.add_missing_dependency p)

/-- The `package.json` file name as a component. -/
def pkgJsonName : Str := "package.json".toList

/-- Model of `Cache::get_package_json` (spec section 4.2): read
`dir/package.json`, recording the probe; parse errors are out of scope of the
snapshot model. -/
def cacheGetPackageJson (fs : FileSystemModel) (dir : Path) (ctx : Ctx) :
    Option (Path × PackageJson) × Ctx :=
  match palistGet dir fs.pkg_jsons with
  | some pj => (some (dir, pj), ctx.add_file_dependency (dir ++ [pkgJsonName]))
  | none => (none, ctx.add_missing_dependency (dir ++ [pkgJsonName]))

/-- Ancestor walk of `Cache::find_package_json`, fueled by the path length. -/
def findPackageJsonAux (fs : FileSystemModel) :
    Nat → Path → Ctx → Option (Path × PackageJson) × Ctx
  | 0, _, ctx => (none, ctx)
  | n + 1, cp, ctx =>
    match cacheGetPackageJson fs cp ctx with
    | (some v, ctx) => (some v, ctx)
    | (none, ctx) =>
      match parentPath cp with
      | none => (none, ctx)
      | some pp => findPackageJsonAux fs n pp ctx

/-- Model of `CachedPath::find_package_json` (spec section 4.2): walk the
ancestors of `cp` and return the first enclosing `package.json`. -/
def find_package_json (fs : FileSystemModel) (cp : Path) (ctx : Ctx) :
    Option (Path × PackageJson) × Ctx :=
  findPackageJsonAux fs (cp.length + 1) cp ctx

/-! ### Options (spec sections 3 and 6; the option struct and its sanitization
live in `options.rs`, not under `src/`, and are modelled from the spec with
the documented defaults). -/

inductive EnforceExtension where
  | auto
  | enabled
  | disabled
deriving DecidableEq, Repr

/-- Model of `EnforceExtension::is_disabled`. -/
def EnforceExtension.is_disabled : EnforceExtension → Bool
  | .disabled => true
  | _ => false

inductive AliasValue where
  | path (s : Str)
  | ignore
deriving DecidableEq, Repr

abbrev Alias := List (Str × List AliasValue)

/-- Modelled from the spec: the tsconfig loader (`tsconfig.rs`) is not under
`src/`.  Only the interface `lib.rs` consumes is kept: `TsConfig::resolve`
returns candidate paths for a specifier (spec section 4.5). -/
structure TsconfigModel where
  paths : List (Str × List Path) := []

/-- Candidate paths the loaded tsconfig produces for a specifier. -/
def TsconfigModel.resolvePaths (tc : TsconfigModel) (specifier : Str) : List Path :=
  (alistGet specifier tc.paths).getD []

structure ResolveOptions where
  «alias» : Alias := []
  alias_fields : List Str := []
  condition_names : List Str := []
  enforce_extension : EnforceExtension := .auto
  exports_fields : List Str := ["exports".toList]
  imports_fields : List Str := ["imports".toList]
  extension_alias : List (Str × List Str) := []
  extensions : List Str := [".js".toList, ".json".toList, ".node".toList]
  fallback : Alias := []
  fully_specified : Bool := false
  main_fields : List Str := ["main".toList]
  main_files : List Str := ["index".toList]
  modules : List Str := ["node_modules".toList]
  resolve_to_context : Bool := false
  prefer_relative : Bool := false
  prefer_absolute : Bool := false
  restrictions : List Path := []
  roots : List Path := []
  builtin_modules : Bool := false
  module_type : Bool := false
  allow_package_exports_in_directory_resolve : Bool := false
  tsconfig : Option TsconfigModel := none
  symlinks : Bool := true

/-- Model of `ResolveOptions::sanitize` (spec section 3): under
`enforce_extension == Auto`, an empty string among `extensions` promotes to
`Enabled`, otherwise to `Disabled`. -/
def sanitize (o : ResolveOptions) : ResolveOptions :=
  match o.enforce_extension with
  | .auto =>
    if o.extensions.contains ([] : Str) then { o with enforce_extension := .enabled }
    else { o with enforce_extension := .disabled }
  | _ => o

/-- Modelled from the spec: `builtins.rs` is not under `src/`; the resolver
only needs membership in the hard-coded sorted list, so a representative
sample suffices for the embedding. -/
def NODEJS_BUILTINS : List Str := ["fs".toList, "path".toList, "url".toList]

/-! ### Pure helpers translated from `src/src/lib.rs` -/

/-- Translation of `Resolver::parse_package_specifier` (lib.rs 1978-2008):
split a bare specifier into package name and subpath, skipping the first `/`
of an `@scope/` prefix. -/
def parse_package_specifier (specifier : Str) : Str × Str :=
  let sep0 := charIdx '/' specifier
  let sep :=
    if specifier.head? = some '@' then
      match sep0 with
      | none => none
      | some i =>
        match charIdx '/' (specifier.drop (i + 1)) with
        | none => none
        | some j => some (i + 1 + j)
    else sep0
  match sep with
  | none => (specifier, [])
  | some i => (specifier.take i, specifier.drop i)

/-- Translation of `Resolver::strip_package_name` (lib.rs 2054-2058). -/
def strip_package_name (specifier package_name : Str) : Option Str :=
  match dropPre package_name specifier with
  | none => none
  | some tail => if tail = [] ∨ tail.head? = some '/' then some tail else none

/-- The `baseLength` of a pattern key (lib.rs 2021-2025): index of `*` plus
one when present, the key length otherwise. -/
def patternBaseLen (k : Str) : Nat :=
  (charIdx '*' k).elim k.length (· + 1)

/-- Translation of `Resolver::pattern_key_compare` (lib.rs 2011-2052),
the Node.js `PATTERN_KEY_COMPARE` algorithm. -/
def pattern_key_compare (key_a key_b : Str) : Ordering :=
  if key_a = [] then .gt
  else
    let base_length_a := patternBaseLen key_a
    let base_length_b := patternBaseLen key_b
    if base_length_a > base_length_b then .lt
    else if base_length_b > base_length_a then .gt
    else if !containsChar '*' key_a then .gt
    else if !containsChar '*' key_b then .lt
    else if key_a.length > key_b.length then .lt
    else if key_b.length > key_a.length then .gt
    else .eq

/-- Translation of the `is_inside` check of `Resolver::check_restrictions`
(lib.rs 754-780); `Restriction::Fn` predicates are not representable in the
snapshot model, so restrictions are path prefixes. -/
def isInsideRestriction (p parent : Path) : Bool :=
  if !pathBeginsWith parent p then false
  else if p.length = parent.length then true
  else p.drop parent.length == [['.']]

/-- Translation of `Resolver::check_restrictions`. -/
def check_restrictions (o : ResolveOptions) (p : Path) : Bool :=
  o.restrictions.all (fun r => isInsideRestriction p r)

/-- Translation of `Resolver::require_core` (lib.rs 422-435): `Some` is the
`Builtin` error the `?` propagates, `None` lets resolution continue. -/
def require_core (o : ResolveOptions) (specifier : Str) : Option ResolveError :=
  if o.builtin_modules then
    let is_runtime_module := hasPre "node:".toList specifier
    if is_runtime_module || NODEJS_BUILTINS.contains specifier then
      some (.builtin
        (if is_runtime_module then specifier else "node:".toList ++ specifier)
        is_runtime_module)
    else none
  else none

/-- Classification of `Path::new(specifier).components().next()` used by the
dispatch in `require_without_parse` (lib.rs 383-407). -/
inductive ComponentKind where
  | rootDir
  | relative
  | hash
  | normal
deriving DecidableEq, Repr

/-- First-component classification of a specifier. -/
def firstComponentKind (s : Str) : ComponentKind :=
  if s.head? = some '/' then .rootDir
  else
    let c := s.takeWhile (· ≠ '/')
    if c = ['.'] ∨ c = ['.', '.'] then .relative
    else if s.head? = some '#' then .hash
    else .normal

/-- Model of the `file://` URL conversion of lib.rs 370-381 (the `url` crate
is an external collaborator): `file:///p` becomes `/p`, any other `file://`
specifier is `PathNotSupported`. -/
def fileUrlRewrite (s : Str) : Except ResolveError Str :=
  if hasPre "file://".toList s then
    if hasPre "file:///".toList s then .ok (s.drop 7)
    else .error (.pathNotSupported s)
  else .ok s

/-- Translation of the alias-key matching at the head of `load_alias`
(lib.rs 1176-1192): `$`-keys match exactly, `*`-keys are wildcards, other
keys prefix-match at a path boundary.  Returns the effective key and the
wildcard flag. -/
def matchAliasKey (alias_key_raw specifier : Str) : Option (Str × Bool) :=
  match dropSuf ['$'] alias_key_raw with
  | some alias_key => if alias_key = specifier then some (alias_key, false) else none
  | none =>
    if containsChar '*' alias_key_raw then some (alias_key_raw, true)
    else if (strip_package_name specifier alias_key_raw).isSome then
      some (alias_key_raw, false)
    else none

/-- Translation of `normalize_string_target` nested in `package_target_resolve`
(lib.rs 1838-1862). -/
def normalize_string_target (target_key target : Str) (pattern_match : Option Str)
    (package_url : Path) : Except ResolveError Str :=
  match pattern_match with
  | none => .ok target
  | some pm =>
    if !containsChar '*' target_key && !containsChar '*' target then
      if hasSuf ['/'] target_key && hasSuf ['/'] target then .ok (target ++ pm)
      else .error (.invalidPackageConfigDirectory (package_url ++ [pkgJsonName]))
    else .ok (replaceAllChar '*' pm target)

/-- Mixed-key-shape detection of `package_exports_resolve` step 1
(lib.rs 1595-1608). -/
def hasMixedKeys (m : List (Str × ImportsExportsEntry)) : Bool :=
  m.any (fun kv => hasPre ['.'] kv.1 || hasPre ['#'] kv.1)
    && m.any (fun kv => !(hasPre ['.'] kv.1 || hasPre ['#'] kv.1))

/-- Best expansion-key fold of `package_imports_exports_resolve`
(lib.rs 1773-1809): returns `(best_key, best_match, best_target)`. -/
def best_match_fold (match_key : Str) (acc : Str × Str × Option ImportsExportsEntry) :
    List (Str × ImportsExportsEntry) → Str × Str × Option ImportsExportsEntry
  | [] => acc
  | (expansion_key, target) :: rest =>
    let acc :=
      if hasPre "./".toList expansion_key || hasPre ['#'] expansion_key then
        match splitFirst '*' expansion_key with
        | some (pattern_base, pattern_trailer) =>
          if hasPre pattern_base match_key
              && !containsChar '*' pattern_trailer
              && (pattern_trailer == []
                  || (decide (match_key.length ≥ expansion_key.length)
                      && hasSuf pattern_trailer match_key))
              && pattern_key_compare acc.1 expansion_key == .gt then
            (expansion_key,
             (match_key.drop pattern_base.length).take
               (match_key.length - pattern_trailer.length - pattern_base.length),
             some target)
          else acc
        | none =>
          if hasSuf ['/'] expansion_key
              && hasPre expansion_key match_key
              && pattern_key_compare acc.1 expansion_key == .gt then
            (expansion_key, match_key.drop expansion_key.length, some target)
          else acc
      else acc
    best_match_fold match_key acc rest

/-- Translation of `Resolver::get_module_directory` (lib.rs 1021-1036): the
cache helpers `cached_node_modules` and `module_directory` return the child
module directory when it exists, recording the probe. -/
def get_module_directory (fs : FileSystemModel) (cp : Path) (module_name : Str)
    (ctx : Ctx) : Option Path × Ctx :=
  if module_name = "node_modules".toList then
    let p := cp ++ [module_name]
    let (b, ctx) := cacheIsDir fs p ctx
    (if b then some p else none, ctx)
  else if lastComp cp = some module_name then (some cp, ctx)
  else
    let p := cp ++ [module_name]
    let (b, ctx) := cacheIsDir fs p ctx
    (if b then some p else none, ctx)

/-- Main-field loop of `package_resolve` step 6 (lib.rs 1561-1573). -/
def package_resolve_mains (fs : FileSystemModel) (o : ResolveOptions)
    (cached_path : Path) : List Str → Ctx → Option Path × Ctx
  | [], ctx => (none, ctx)
  | main_field :: rest, ctx =>
    let cpm := normalize_with cached_path main_field
    let (b, ctx) := cacheIsFile fs cpm ctx
    if b && check_restrictions o cpm then (some cpm, ctx)
    else package_resolve_mains fs o cached_path rest ctx

/-! ### The resolver algorithm (mutual translation of `src/src/lib.rs`).

Every function consumes one unit of fuel on entry; `load_alias` and the other
loops written as `for` in Rust recurse on the remaining list, also consuming
fuel, which only matters for executions the source would not finish either. -/

mutual

/-- Translation of `Resolver::require` (lib.rs 333-348): parse the specifier
(possibly resolving a fragment as a path) and continue without parsing. -/
def require (fs : FileSystemModel) (o : ResolveOptions) :
    Nat → Path → Str → Ctx → Except ResolveError Path × Ctx
  | 0, _, _, ctx => (.error .recursion, ctx)
  | fuel + 1, cached_path, specifier, ctx =>
    match load_parse fs o fuel cached_path specifier ctx with
    | (.error e, ctx) => (.error e, ctx)
    | (.ok (_, some path), ctx) => (.ok path, ctx)
    | (.ok (parsed, none), ctx) =>
      require_without_parse fs o fuel cached_path parsed.path ctx

/-- Translation of `Resolver::load_parse` (lib.rs 535-555): store query and
fragment in the context; when a fragment is present without a query, first try
`{path}{fragment}` as a single path, restoring the fragment on failure. -/
def load_parse (fs : FileSystemModel) (o : ResolveOptions) :
    Nat → Path → Str → Ctx → Except ResolveError (Specifier × Option Path) × Ctx
  | 0, _, _, ctx => (.error .recursion, ctx)
  | fuel + 1, cached_path, specifier, ctx =>
    match specifierParse specifier with
    | .error e => (.error (.specifier e), ctx)
    | .ok parsed =>
      let ctx := ctx.with_query_fragment parsed.query parsed.fragment
      match ctx.fragment, ctx.query with
      | some fragment, none =>
        let ctx := { ctx with fragment := none }
        let path := parsed.path ++ fragment
        match require_without_parse fs o fuel cached_path path ctx with
        | (.ok p, ctx) => (.ok (parsed, some p), ctx)
        | (.error _, ctx) => (.ok (parsed, none), { ctx with fragment := some fragment })
      | _, _ => (.ok (parsed, none), ctx)

/-- Translation of `Resolver::require_without_parse` (lib.rs 350-417):
tsconfig paths (with a fresh discarded context), alias, `file://` rewrite,
dispatch on the first component, then the fallback retry for non-ignore
errors. -/
def require_without_parse (fs : FileSystemModel) (o : ResolveOptions) :
    Nat → Path → Str → Ctx → Except ResolveError Path × Ctx
  | 0, _, _, ctx => (.error .recursion, ctx)
  | fuel + 1, cached_path, specifier, ctx =>
    match (load_tsconfig_paths fs o fuel cached_path specifier Ctx.default).1 with
    | .error e => (.error e, ctx)
    | .ok (some path) => (.ok path, ctx)
    | .ok none =>
      match load_alias fs o fuel cached_path specifier o.«alias» ctx with
      | (.error e, ctx) => (.error e, ctx)
      | (.ok (some path), ctx) => (.ok path, ctx)
      | (.ok none, ctx) =>
        match fileUrlRewrite specifier with
        | .error e => (.error e, ctx)
        | .ok specifier =>
          match require_dispatch fs o fuel cached_path specifier ctx with
          | .error e => (.error e, ctx)
          | .ok (.ok path, ctx) => (.ok path, ctx)
          | .ok (.error err, ctx) =>
            if err.is_ignore then (.error err, ctx)
            else
              match load_alias fs o fuel cached_path specifier o.fallback ctx with
              | (.ok (some path), ctx) => (.ok path, ctx)
              | (.ok none, ctx) => (.error err, ctx)
              | (.error e2, ctx) => (.error e2, ctx)

/-- Dispatch on the first lexical component of the specifier (lib.rs 383-407).
The outer `Except` is the early `?` return of `require_core`, which bypasses
the fallback retry; the inner result is the primary branch's outcome. -/
def require_dispatch (fs : FileSystemModel) (o : ResolveOptions) :
    Nat → Path → Str → Ctx → Except ResolveError (Except ResolveError Path × Ctx)
  | 0, _, _, ctx => .ok (.error .recursion, ctx)
  | fuel + 1, cached_path, specifier, ctx =>
    match firstComponentKind specifier with
    | .rootDir => .ok (require_absolute fs o fuel cached_path specifier ctx)
    | .relative => .ok (require_relative fs o fuel cached_path specifier ctx)
    | .hash => .ok (require_hash fs o fuel cached_path specifier ctx)
    | .normal =>
      match require_core o specifier with
      | some e => .error e
      | none => .ok (require_bare fs o fuel cached_path specifier ctx)

/-- Translation of `Resolver::require_absolute` (lib.rs 437-465), first step:
under `prefer_absolute` try the package-self/node_modules path, discarding a
failure. -/
def require_absolute (fs : FileSystemModel) (o : ResolveOptions) :
    Nat → Path → Str → Ctx → Except ResolveError Path × Ctx
  | 0, _, _, ctx => (.error .recursion, ctx)
  | fuel + 1, cached_path, specifier, ctx =>
    if !o.prefer_relative && o.prefer_absolute then
      match load_package_self_or_node_modules fs o fuel cached_path specifier ctx with
      | (.ok path, ctx) => (.ok path, ctx)
      | (.error _, ctx) => require_absolute_rest fs o fuel cached_path specifier ctx
    else require_absolute_rest fs o fuel cached_path specifier ctx

/-- Rest of `require_absolute`: roots, then the specifier as an absolute path,
else `NotFound`. -/
def require_absolute_rest (fs : FileSystemModel) (o : ResolveOptions) :
    Nat → Path → Str → Ctx → Except ResolveError Path × Ctx
  | 0, _, _, ctx => (.error .recursion, ctx)
  | fuel + 1, cached_path, specifier, ctx =>
    match load_roots fs o fuel cached_path specifier ctx with
    | (some path, ctx) => (.ok path, ctx)
    | (none, ctx) =>
      let path := strToPath specifier
      match load_as_file_or_directory fs o fuel path specifier ctx with
      | (.error e, ctx) => (.error e, ctx)
      | (.ok (some p), ctx) => (.ok p, ctx)
      | (.ok none, ctx) => (.error (.notFound specifier), ctx)

/-- Translation of `Resolver::require_relative` (lib.rs 468-492): normalize
onto the directory and load as file or directory (`.` becomes `./`). -/
def require_relative (fs : FileSystemModel) (o : ResolveOptions) :
    Nat → Path → Str → Ctx → Except ResolveError Path × Ctx
  | 0, _, _, ctx => (.error .recursion, ctx)
  | fuel + 1, cached_path, specifier, ctx =>
    let cached_path := normalize_with cached_path specifier
    let spec2 := if specifier = ['.'] then "./".toList else specifier
    match load_as_file_or_directory fs o fuel cached_path spec2 ctx with
    | (.error e, ctx) => (.error e, ctx)
    | (.ok (some p), ctx) => (.ok p, ctx)
    | (.ok none, ctx) => (.error (.notFound specifier), ctx)

/-- Translation of `Resolver::require_hash` (lib.rs 494-504): package imports,
else `NotFound`. -/
def require_hash (fs : FileSystemModel) (o : ResolveOptions) :
    Nat → Path → Str → Ctx → Except ResolveError Path × Ctx
  | 0, _, _, ctx => (.error .recursion, ctx)
  | fuel + 1, cached_path, specifier, ctx =>
    match load_package_imports fs o fuel cached_path specifier ctx with
    | (.error e, ctx) => (.error e, ctx)
    | (.ok (some p), ctx) => (.ok p, ctx)
    | (.ok none, ctx) => (.error (.notFound specifier), ctx)

/-- Translation of `Resolver::require_bare` (lib.rs 506-525): under
`prefer_relative` try relative first, then package self or node_modules. -/
def require_bare (fs : FileSystemModel) (o : ResolveOptions) :
    Nat → Path → Str → Ctx → Except ResolveError Path × Ctx
  | 0, _, _, ctx => (.error .recursion, ctx)
  | fuel + 1, cached_path, specifier, ctx =>
    if o.prefer_relative then
      match require_relative fs o fuel cached_path specifier ctx with
      | (.ok path, ctx) => (.ok path, ctx)
      | (.error _, ctx) =>
        load_package_self_or_node_modules fs o fuel cached_path specifier ctx
    else load_package_self_or_node_modules fs o fuel cached_path specifier ctx

/-- Translation of `Resolver::load_package_self_or_node_modules`
(lib.rs 557-611), including the legacy `../..` retry. -/
def load_package_self_or_node_modules (fs : FileSystemModel) (o : ResolveOptions) :
    Nat → Path → Str → Ctx → Except ResolveError Path × Ctx
  | 0, _, _, ctx => (.error .recursion, ctx)
  | fuel + 1, cached_path, specifier, ctx =>
    let (package_name, subpath) := parse_package_specifier specifier
    let ctx := if subpath.isEmpty then ctx.with_fully_specified false else ctx
    match load_package_self fs o fuel cached_path specifier ctx with
    | (.error e, ctx) => (.error e, ctx)
    | (.ok (some p), ctx) => (.ok p, ctx)
    | (.ok none, ctx) =>
      match load_node_modules fs o fuel cached_path specifier package_name subpath ctx with
      | (.error e, ctx) => (.error e, ctx)
      | (.ok (some p), ctx) => (.ok p, ctx)
      | (.ok none, ctx) =>
        if containsSub "/../..".toList specifier || containsSub "../../".toList specifier then
          let path := normalizeRelative specifier
          let normalized :=
            if hasSuf ['/'] specifier then path ++ ['/'] else path
          let (package_name, subpath) := parse_package_specifier normalized
          if package_name = "..".toList then
            match load_node_modules fs o fuel cached_path normalized package_name subpath ctx with
            | (.error e, ctx) => (.error e, ctx)
            | (.ok (some p), ctx) => (.ok p, ctx)
            | (.ok none, ctx) => (.error (.notFound specifier), ctx)
          else (.error (.notFound specifier), ctx)
        else (.error (.notFound specifier), ctx)

/-- Translation of `Resolver::load_package_imports` (lib.rs 614-634). -/
def load_package_imports (fs : FileSystemModel) (o : ResolveOptions) :
    Nat → Path → Str → Ctx → Except ResolveError (Option Path) × Ctx
  | 0, _, _, ctx => (.error .recursion, ctx)
  | fuel + 1, cached_path, specifier, ctx =>
    match find_package_json fs cached_path ctx with
    | (none, ctx) => (.ok none, ctx)
    | (some (pj_dir, package_json), ctx) =>
      match package_imports_resolve fs o fuel specifier pj_dir package_json ctx with
      | (.error e, ctx) => (.error e, ctx)
      | (.ok (some path), ctx) => resolve_esm_match fs o fuel specifier path ctx
      | (.ok none, ctx) => (.ok none, ctx)

/-- Translation of `Resolver::load_as_file` (lib.rs 636-654). -/
def load_as_file (fs : FileSystemModel) (o : ResolveOptions) :
    Nat → Path → Ctx → Except ResolveError (Option Path) × Ctx
  | 0, _, ctx => (.error .recursion, ctx)
  | fuel + 1, cached_path, ctx =>
    match load_extension_alias fs o fuel cached_path ctx with
    | (.error e, ctx) => (.error e, ctx)
    | (.ok (some p), ctx) => (.ok (some p), ctx)
    | (.ok none, ctx) =>
      if o.enforce_extension.is_disabled then
        match load_alias_or_file fs o fuel cached_path ctx with
        | (.error e, ctx) => (.error e, ctx)
        | (.ok (some p), ctx) => (.ok (some p), ctx)
        | (.ok none, ctx) => load_extensions fs o fuel cached_path o.extensions ctx
      else load_extensions fs o fuel cached_path o.extensions ctx

/-- Translation of `Resolver::load_as_directory` (lib.rs 656-704). -/
def load_as_directory (fs : FileSystemModel) (o : ResolveOptions) :
    Nat → Path → Ctx → Except ResolveError (Option Path) × Ctx
  | 0, _, ctx => (.error .recursion, ctx)
  | fuel + 1, cached_path, ctx =>
    match cacheGetPackageJson fs cached_path ctx with
    | (some (_, package_json), ctx) =>
      match load_as_directory_mains fs o fuel cached_path
          (package_json.main_fields o.main_fields) ctx with
      | (.error e, ctx) => (.error e, ctx)
      | (.ok (some p), ctx) => (.ok (some p), ctx)
      | (.ok none, ctx) =>
        if o.allow_package_exports_in_directory_resolve then
          match load_as_directory_exports fs o fuel cached_path
              (package_json.exports_fields o.exports_fields) ctx with
          | (.error e, ctx) => (.error e, ctx)
          | (.ok (some p), ctx) => (.ok (some p), ctx)
          | (.ok none, ctx) => load_index fs o fuel cached_path ctx
        else load_index fs o fuel cached_path ctx
    | (none, ctx) => load_index fs o fuel cached_path ctx

/-- Main-field loop of `load_as_directory` (lib.rs 663-682): normalize the
main field, then `LOAD_AS_FILE` and `LOAD_INDEX` on it. -/
def load_as_directory_mains (fs : FileSystemModel) (o : ResolveOptions) :
    Nat → Path → List Str → Ctx → Except ResolveError (Option Path) × Ctx
  | 0, _, _, ctx => (.error .recursion, ctx)
  | fuel + 1, cached_path, mains, ctx =>
    match mains with
    | [] => (.ok none, ctx)
    | main_field :: rest =>
      let main_field :=
        if hasPre "./".toList main_field || hasPre "../".toList main_field then main_field
        else "./".toList ++ main_field
      let cp2 := normalize_with cached_path main_field
      match load_as_file fs o fuel cp2 ctx with
      | (.error e, ctx) => (.error e, ctx)
      | (.ok (some p), ctx) => (.ok (some p), ctx)
      | (.ok none, ctx) =>
        match load_index fs o fuel cp2 ctx with
        | (.error e, ctx) => (.error e, ctx)
        | (.ok (some p), ctx) => (.ok (some p), ctx)
        | (.ok none, ctx) => load_as_directory_mains fs o fuel cached_path rest ctx

/-- Exports loop of `load_as_directory` under
`allow_package_exports_in_directory_resolve` (lib.rs 691-699). -/
def load_as_directory_exports (fs : FileSystemModel) (o : ResolveOptions) :
    Nat → Path → List ImportsExportsEntry → Ctx → Except ResolveError (Option Path) × Ctx
  | 0, _, _, ctx => (.error .recursion, ctx)
  | fuel + 1, cached_path, entries, ctx =>
    match entries with
    | [] => (.ok none, ctx)
    | exports :: rest =>
      match package_exports_resolve fs o fuel cached_path ['.'] exports ctx with
      | (.error e, ctx) => (.error e, ctx)
      | (.ok (some p), ctx) => (.ok (some p), ctx)
      | (.ok none, ctx) => load_as_directory_exports fs o fuel cached_path rest ctx

/-- Translation of `Resolver::load_as_file_or_directory` (lib.rs 706-726). -/
def load_as_file_or_directory (fs : FileSystemModel) (o : ResolveOptions) :
    Nat → Path → Str → Ctx → Except ResolveError (Option Path) × Ctx
  | 0, _, _, ctx => (.error .recursion, ctx)
  | fuel + 1, cached_path, specifier, ctx =>
    if o.resolve_to_context then
      let (b, ctx) := cacheIsDir fs cached_path ctx
      (.ok (if b then some cached_path else none), ctx)
    else
      let step1 : Except ResolveError (Option Path) × Ctx :=
        if !hasSuf ['/'] specifier then load_as_file fs o fuel cached_path ctx
        else (.ok none, ctx)
      match step1 with
      | (.error e, ctx) => (.error e, ctx)
      | (.ok (some p), ctx) => (.ok (some p), ctx)
      | (.ok none, ctx) =>
        let (b, ctx) := cacheIsDir fs cached_path ctx
        if b then
          match load_as_directory fs o fuel cached_path ctx with
          | (.error e, ctx) => (.error e, ctx)
          | (.ok (some p), ctx) => (.ok (some p), ctx)
          | (.ok none, ctx) => (.ok none, ctx)
        else (.ok none, ctx)

/-- Translation of `Resolver::load_extensions` (lib.rs 728-744): skipped
entirely under `fully_specified`. -/
def load_extensions (fs : FileSystemModel) (o : ResolveOptions) :
    Nat → Path → List Str → Ctx → Except ResolveError (Option Path) × Ctx
  | 0, _, _, ctx => (.error .recursion, ctx)
  | fuel + 1, path, extensions, ctx =>
    if ctx.fully_specified then (.ok none, ctx)
    else
      match extensions with
      | [] => (.ok none, ctx)
      | extension :: rest =>
        let cp2 := add_extension path extension
        match load_alias_or_file fs o fuel cp2 ctx with
        | (.error e, ctx) => (.error e, ctx)
        | (.ok (some p), ctx) => (.ok (some p), ctx)
        | (.ok none, ctx) => load_extensions fs o fuel path rest ctx

/-- Translation of `Resolver::load_index` (lib.rs 782-799), the loop over
`main_files`. -/
def load_index (fs : FileSystemModel) (o : ResolveOptions) :
    Nat → Path → Ctx → Except ResolveError (Option Path) × Ctx
  | 0, _, ctx => (.error .recursion, ctx)
  | fuel + 1, cached_path, ctx =>
    load_index_go fs o fuel cached_path o.main_files ctx

/-- Body of the `main_files` loop of `load_index`: a restricted direct hit
falls through to the extension probe of the same candidate. -/
def load_index_go (fs : FileSystemModel) (o : ResolveOptions) :
    Nat → Path → List Str → Ctx → Except ResolveError (Option Path) × Ctx
  | 0, _, _, ctx => (.error .recursion, ctx)
  | fuel + 1, cached_path, mains, ctx =>
    match mains with
    | [] => (.ok none, ctx)
    | main_file :: rest =>
      let cp2 := normalize_with cached_path main_file
      let step1 : Except ResolveError (Option Path) × Ctx :=
        if o.enforce_extension.is_disabled then
          match load_alias_or_file fs o fuel cp2 ctx with
          | (.error e, ctx) => (.error e, ctx)
          | (.ok (some p), ctx) =>
            if check_restrictions o p then (.ok (some p), ctx) else (.ok none, ctx)
          | (.ok none, ctx) => (.ok none, ctx)
        else (.ok none, ctx)
      match step1 with
      | (.error e, ctx) => (.error e, ctx)
      | (.ok (some p), ctx) => (.ok (some p), ctx)
      | (.ok none, ctx) =>
        match load_extensions fs o fuel cp2 o.extensions ctx with
        | (.error e, ctx) => (.error e, ctx)
        | (.ok (some p), ctx) => (.ok (some p), ctx)
        | (.ok none, ctx) => load_index_go fs o fuel cached_path rest ctx

/-- Translation of `Resolver::load_browser_field_or_alias` (lib.rs 802-829). -/
def load_browser_field_or_alias (fs : FileSystemModel) (o : ResolveOptions) :
    Nat → Path → Ctx → Except ResolveError (Option Path) × Ctx
  | 0, _, ctx => (.error .recursion, ctx)
  | fuel + 1, cached_path, ctx =>
    let step1 : Except ResolveError (Option Path) × Ctx :=
      if !o.alias_fields.isEmpty then
        match find_package_json fs cached_path ctx with
        | (some (package_url, package_json), ctx) =>
          load_browser_field fs o fuel cached_path none package_url package_json ctx
        | (none, ctx) => (.ok none, ctx)
      else (.ok none, ctx)
    match step1 with
    | (.error e, ctx) => (.error e, ctx)
    | (.ok (some p), ctx) => (.ok (some p), ctx)
    | (.ok none, ctx) =>
      if !o.«alias».isEmpty then
        let alias_specifier := pathToStr cached_path
        match load_alias fs o fuel cached_path alias_specifier o.«alias» ctx with
        | (.error e, ctx) => (.error e, ctx)
        | (.ok (some p), ctx) => (.ok (some p), ctx)
        | (.ok none, ctx) => (.ok none, ctx)
      else (.ok none, ctx)

/-- Translation of `Resolver::load_alias_or_file` (lib.rs 831-839). -/
def load_alias_or_file (fs : FileSystemModel) (o : ResolveOptions) :
    Nat → Path → Ctx → Except ResolveError (Option Path) × Ctx
  | 0, _, ctx => (.error .recursion, ctx)
  | fuel + 1, cached_path, ctx =>
    match load_browser_field_or_alias fs o fuel cached_path ctx with
    | (.error e, ctx) => (.error e, ctx)
    | (.ok (some p), ctx) => (.ok (some p), ctx)
    | (.ok none, ctx) =>
      let (b, ctx) := cacheIsFile fs cached_path ctx
      if b && check_restrictions o cached_path then (.ok (some cached_path), ctx)
      else (.ok none, ctx)

/-- Translation of `Resolver::load_node_modules` (lib.rs 841-934), outer
shape; the module-name and ancestor loops are the helpers below. -/
def load_node_modules (fs : FileSystemModel) (o : ResolveOptions) :
    Nat → Path → Str → Str → Str → Ctx → Except ResolveError (Option Path) × Ctx
  | 0, _, _, _, _, ctx => (.error .recursion, ctx)
  | fuel + 1, cached_path, specifier, package_name, subpath, ctx =>
    load_node_modules_mods fs o fuel cached_path specifier package_name subpath
      o.modules ctx

/-- Loop of `load_node_modules` over `options.modules`. -/
def load_node_modules_mods (fs : FileSystemModel) (o : ResolveOptions) :
    Nat → Path → Str → Str → Str → List Str → Ctx →
    Except ResolveError (Option Path) × Ctx
  | 0, _, _, _, _, _, ctx => (.error .recursion, ctx)
  | fuel + 1, cached_path, specifier, package_name, subpath, modules, ctx =>
    match modules with
    | [] => (.ok none, ctx)
    | module_name :: rest =>
      match load_node_modules_walk fs o fuel module_name cached_path specifier
          package_name subpath ctx with
      | (.error e, ctx) => (.error e, ctx)
      | (.ok (some r), ctx) => (.ok r, ctx)
      | (.ok none, ctx) =>
        load_node_modules_mods fs o fuel cached_path specifier package_name subpath
          rest ctx

/-- Ancestor walk of `load_node_modules` (lib.rs 859-931).  `.ok none` means
the ancestors are exhausted and the next module name is tried; `.ok (some r)`
is a hard return of `r` from the whole lookup (the `resolve_to_context` branch
returns `None` this way, lib.rs 907-909). -/
def load_node_modules_walk (fs : FileSystemModel) (o : ResolveOptions) :
    Nat → Str → Path → Str → Str → Str → Ctx →
    Except ResolveError (Option (Option Path)) × Ctx
  | 0, _, _, _, _, _, ctx => (.error .recursion, ctx)
  | fuel + 1, module_name, current, specifier, package_name, subpath, ctx =>
    let (b, ctx) := cacheIsDir fs current ctx
    if !b then
      load_node_modules_next fs o fuel module_name current specifier package_name
        subpath ctx
    else
      match get_module_directory fs current module_name ctx with
      | (none, ctx) =>
        load_node_modules_next fs o fuel module_name current specifier package_name
          subpath ctx
      | (some module_dir, ctx) =>
        if package_name ≠ [] then
          let cp_pkg := normalize_with module_dir package_name
          let (bd, ctx) := cacheIsDir fs cp_pkg ctx
          if bd then
            match load_package_exports fs o fuel specifier subpath cp_pkg ctx with
            | (.error e, ctx) => (.error e, ctx)
            | (.ok (some p), ctx) => (.ok (some (some p)), ctx)
            | (.ok none, ctx) =>
              load_node_modules_file_dir fs o fuel module_name current module_dir
                specifier package_name subpath ctx
          else
            if subpath ≠ [] then
              load_node_modules_next fs o fuel module_name current specifier
                package_name subpath ctx
            else if package_name.head? = some '@' then
              match parentPath cp_pkg with
              | some pp =>
                let (bp, ctx) := cacheIsDir fs pp ctx
                if !bp then
                  load_node_modules_next fs o fuel module_name current specifier
                    package_name subpath ctx
                else
                  load_node_modules_file_dir fs o fuel module_name current module_dir
                    specifier package_name subpath ctx
              | none =>
                load_node_modules_file_dir fs o fuel module_name current module_dir
                  specifier package_name subpath ctx
            else
              load_node_modules_file_dir fs o fuel module_name current module_dir
                specifier package_name subpath ctx
        else
          load_node_modules_file_dir fs o fuel module_name current module_dir
            specifier package_name subpath ctx

/-- The "try as file or directory" tail of one `load_node_modules` iteration
(lib.rs 900-930), then continue with the next ancestor. -/
def load_node_modules_file_dir (fs : FileSystemModel) (o : ResolveOptions) :
    Nat → Str → Path → Path → Str → Str → Str → Ctx →
    Except ResolveError (Option (Option Path)) × Ctx
  | 0, _, _, _, _, _, _, ctx => (.error .recursion, ctx)
  | fuel + 1, module_name, current, module_dir, specifier, package_name, subpath, ctx =>
    let cached_path := normalize_with module_dir specifier
    if o.resolve_to_context then
      let (b, ctx) := cacheIsDir fs cached_path ctx
      (.ok (some (if b then some cached_path else none)), ctx)
    else
      let step1 : Except ResolveError (Option Path) × Ctx :=
        if !hasSuf ['/'] specifier then load_as_file fs o fuel cached_path ctx
        else (.ok none, ctx)
      match step1 with
      | (.error e, ctx) => (.error e, ctx)
      | (.ok (some p), ctx) => (.ok (some (some p)), ctx)
      | (.ok none, ctx) =>
        let (b, ctx) := cacheIsDir fs cached_path ctx
        let step2 : Except ResolveError (Option Path) × Ctx :=
          if b then
            match load_browser_field_or_alias fs o fuel cached_path ctx with
            | (.error e, ctx) => (.error e, ctx)
            | (.ok (some p), ctx) => (.ok (some p), ctx)
            | (.ok none, ctx) =>
              match load_as_directory fs o fuel cached_path ctx with
              | (.error e, ctx) => (.error e, ctx)
              | (.ok (some p), ctx) => (.ok (some p), ctx)
              | (.ok none, ctx) => (.ok none, ctx)
          else (.ok none, ctx)
        match step2 with
        | (.error e, ctx) => (.error e, ctx)
        | (.ok (some p), ctx) => (.ok (some (some p)), ctx)
        | (.ok none, ctx) =>
          match load_as_directory fs o fuel cached_path ctx with
          | (.error e, ctx) => (.error e, ctx)
          | (.ok (some p), ctx) => (.ok (some (some p)), ctx)
          | (.ok none, ctx) =>
            load_node_modules_next fs o fuel module_name current specifier
              package_name subpath ctx

/-- Step to the parent directory in the ancestor walk of `load_node_modules`. -/
def load_node_modules_next (fs : FileSystemModel) (o : ResolveOptions) :
    Nat → Str → Path → Str → Str → Str → Ctx →
    Except ResolveError (Option (Option Path)) × Ctx
  | 0, _, _, _, _, _, ctx => (.error .recursion, ctx)
  | fuel + 1, module_name, current, specifier, package_name, subpath, ctx =>
    match parentPath current with
    | none => (.ok none, ctx)
    | some pp =>
      load_node_modules_walk fs o fuel module_name pp specifier package_name
        subpath ctx

/-- Translation of `Resolver::load_package_exports` (lib.rs 1038-1066). -/
def load_package_exports (fs : FileSystemModel) (o : ResolveOptions) :
    Nat → Str → Str → Path → Ctx → Except ResolveError (Option Path) × Ctx
  | 0, _, _, _, ctx => (.error .recursion, ctx)
  | fuel + 1, specifier, subpath, cached_path, ctx =>
    match cacheGetPackageJson fs cached_path ctx with
    | (none, ctx) => (.ok none, ctx)
    | (some (_, package_json), ctx) =>
      exports_fields_loop fs o fuel specifier cached_path ('.' :: subpath)
        (package_json.exports_fields o.exports_fields) ctx

/-- Shared exports-field loop of `load_package_exports` (lib.rs 1057-1064) and
`load_package_self` (lib.rs 1092-1102): resolve through each configured
exports field, then `RESOLVE_ESM_MATCH`. -/
def exports_fields_loop (fs : FileSystemModel) (o : ResolveOptions) :
    Nat → Str → Path → Str → List ImportsExportsEntry → Ctx →
    Except ResolveError (Option Path) × Ctx
  | 0, _, _, _, _, ctx => (.error .recursion, ctx)
  | fuel + 1, specifier, package_url, subpath, entries, ctx =>
    match entries with
    | [] => (.ok none, ctx)
    | exports :: rest =>
      match package_exports_resolve fs o fuel package_url subpath exports ctx with
      | (.error e, ctx) => (.error e, ctx)
      | (.ok (some path), ctx) => resolve_esm_match fs o fuel specifier path ctx
      | (.ok none, ctx) =>
        exports_fields_loop fs o fuel specifier package_url subpath rest ctx

/-- Translation of `Resolver::load_package_self` (lib.rs 1068-1105). -/
def load_package_self (fs : FileSystemModel) (o : ResolveOptions) :
    Nat → Path → Str → Ctx → Except ResolveError (Option Path) × Ctx
  | 0, _, _, ctx => (.error .recursion, ctx)
  | fuel + 1, cached_path, specifier, ctx =>
    match find_package_json fs cached_path ctx with
    | (none, ctx) => (.ok none, ctx)
    | (some (package_url, package_json), ctx) =>
      match package_json.name.bind (fun n => strip_package_name specifier n) with
      | some subpath =>
        match exports_fields_loop fs o fuel specifier package_url ('.' :: subpath)
            (package_json.exports_fields o.exports_fields) ctx with
        | (.error e, ctx) => (.error e, ctx)
        | (.ok (some p), ctx) => (.ok (some p), ctx)
        | (.ok none, ctx) =>
          load_browser_field fs o fuel cached_path (some specifier) package_url
            package_json ctx
      | none =>
        load_browser_field fs o fuel cached_path (some specifier) package_url
          package_json ctx

/-- Translation of `Resolver::resolve_esm_match` (lib.rs 1107-1124). -/
def resolve_esm_match (fs : FileSystemModel) (o : ResolveOptions) :
    Nat → Str → Path → Ctx → Except ResolveError (Option Path) × Ctx
  | 0, _, _, ctx => (.error .recursion, ctx)
  | fuel + 1, specifier, cached_path, ctx =>
    match load_as_file_or_directory fs o fuel cached_path [] ctx with
    | (.error e, ctx) => (.error e, ctx)
    | (.ok (some p), ctx) => (.ok (some p), ctx)
    | (.ok none, ctx) => (.error (.notFound specifier), ctx)

/-- Translation of `Resolver::load_browser_field` (lib.rs 1126-1166),
including the recursive-alias detection. -/
def load_browser_field (fs : FileSystemModel) (o : ResolveOptions) :
    Nat → Path → Option Str → Path → PackageJson → Ctx →
    Except ResolveError (Option Path) × Ctx
  | 0, _, _, _, _, ctx => (.error .recursion, ctx)
  | fuel + 1, cached_path, module_specifier, package_url, package_json, ctx =>
    match package_json.resolve_browser_field cached_path module_specifier
        o.alias_fields with
    | none => (.ok none, ctx)
    | some new_specifier =>
      if module_specifier = some new_specifier then (.ok none, ctx)
      else if ctx.resolving_alias = some new_specifier then
        if ((dropPre "./".toList new_specifier).filter
            (fun s => pathEndsWith (relComps s) cached_path)).isSome then
          let (b, ctx) := cacheIsFile fs cached_path ctx
          if b then
            if check_restrictions o cached_path then (.ok (some cached_path), ctx)
            else (.ok none, ctx)
          else (.error (.notFound new_specifier), ctx)
        else (.error .recursion, ctx)
      else
        let ctx := ctx.with_resolving_alias new_specifier
        let ctx := ctx.with_fully_specified false
        match require fs o fuel package_url new_specifier ctx with
        | (.ok p, ctx) => (.ok (some p), ctx)
        | (.error e, ctx) => (.error e, ctx)

/-- Translation of `Resolver::load_alias` (lib.rs 1169-1227): iterate the
alias entries; a matched entry runs its values and, when any value was
attempted without success, stops with `MatchedAliasNotFound`. -/
def load_alias (fs : FileSystemModel) (o : ResolveOptions) :
    Nat → Path → Str → Alias → Ctx → Except ResolveError (Option Path) × Ctx
  | 0, _, _, _, ctx => (.error .recursion, ctx)
  | fuel + 1, cached_path, specifier, aliases, ctx =>
    match aliases with
    | [] => (.ok none, ctx)
    | (alias_key_raw, specifiers) :: rest =>
      match matchAliasKey alias_key_raw specifier with
      | none => load_alias fs o fuel cached_path specifier rest ctx
      | some (alias_key, alias_key_has_wildcard) =>
        match try_alias_values fs o fuel cached_path alias_key alias_key_has_wildcard
            specifiers specifier ctx false with
        | (.error e, ctx, _) => (.error e, ctx)
        | (.ok (some p), ctx, _) => (.ok (some p), ctx)
        | (.ok none, ctx, should_stop) =>
          if should_stop then (.error (.matchedAliasNotFound specifier alias_key), ctx)
          else load_alias fs o fuel cached_path specifier rest ctx

/-- Value loop of one `load_alias` entry (lib.rs 1196-1218): `Ignore` yields
the terminal `Ignored` error on the alias key joined to the directory. -/
def try_alias_values (fs : FileSystemModel) (o : ResolveOptions) :
    Nat → Path → Str → Bool → List AliasValue → Str → Ctx → Bool →
    (Except ResolveError (Option Path)) × Ctx × Bool
  | 0, _, _, _, _, _, ctx, should_stop => (.error .recursion, ctx, should_stop)
  | fuel + 1, cached_path, alias_key, has_wildcard, values, specifier, ctx, should_stop =>
    match values with
    | [] => (.ok none, ctx, should_stop)
    | .ignore :: _ =>
      let cp2 := normalize_with cached_path alias_key
      (.error (.ignored cp2), ctx, should_stop)
    | .path alias_value :: rest =>
      match load_alias_value fs o fuel cached_path alias_key has_wildcard alias_value
          specifier ctx should_stop with
      | (.error e, ctx, ss) => (.error e, ctx, ss)
      | (.ok (some p), ctx, ss) => (.ok (some p), ctx, ss)
      | (.ok none, ctx, ss) =>
        try_alias_values fs o fuel cached_path alias_key has_wildcard rest specifier
          ctx ss

/-- Translation of `Resolver::load_alias_value` (lib.rs 1229-1290): compute
the substituted specifier, mark the entry as attempted, and recurse. -/
def load_alias_value (fs : FileSystemModel) (o : ResolveOptions) :
    Nat → Path → Str → Bool → Str → Str → Ctx → Bool →
    (Except ResolveError (Option Path)) × Ctx × Bool
  | 0, _, _, _, _, _, ctx, should_stop => (.error .recursion, ctx, should_stop)
  | fuel + 1, cached_path, alias_key, alias_key_has_wild_card, alias_value, request,
      ctx, should_stop =>
    if request == alias_value
        || (match dropPre alias_value request with
            | some tail => tail.head? == some '/'
            | none => false) then
      (.ok none, ctx, should_stop)
    else
      if alias_key_has_wild_card then
        match splitFirst '*' alias_key with
        | none => (.ok none, ctx, should_stop)
        | some (pre, suf) =>
          match (dropPre pre request).bind (fun sp => dropSuf suf sp) with
          | none => (.ok none, ctx, should_stop)
          | some matched =>
            let new_specifier :=
              if containsChar '*' alias_value then
                replaceFirstChar '*' matched alias_value
              else alias_value
            load_alias_value_attempt fs o fuel cached_path new_specifier ctx
      else
        let tail := request.drop alias_key.length
        if tail = [] then
          load_alias_value_attempt fs o fuel cached_path alias_value ctx
        else
          let alias_path := strToPath alias_value
          let (is_f, ctx) := cacheIsFile fs alias_path ctx
          if is_f then (.ok none, ctx, should_stop)
          else
            let tail2 := trimStartChar '/' tail
            if tail2 = [] then
              load_alias_value_attempt fs o fuel cached_path alias_value ctx
            else
              load_alias_value_attempt fs o fuel cached_path
                (pathToStr (normalize_with alias_path tail2)) ctx

/-- Attempt of `load_alias_value` (lib.rs 1279-1287): set `should_stop`, clear
`fully_specified`, and recurse into `require`; `NotFound` and
`MatchedAliasNotFound` are swallowed so the next value is tried, every other
error propagates. -/
def load_alias_value_attempt (fs : FileSystemModel) (o : ResolveOptions) :
    Nat → Path → Str → Ctx → (Except ResolveError (Option Path)) × Ctx × Bool
  | 0, _, _, ctx => (.error .recursion, ctx, true)
  | fuel + 1, cached_path, new_specifier, ctx =>
    let ctx := ctx.with_fully_specified false
    match require fs o fuel cached_path new_specifier ctx with
    | (.error (.notFound _), ctx) => (.ok none, ctx, true)
    | (.error (.matchedAliasNotFound _ _), ctx) => (.ok none, ctx, true)
    | (.ok p, ctx) => (.ok (some p), ctx, true)
    | (.error e, ctx) => (.error e, ctx, true)

/-- Translation of `Resolver::load_extension_alias` (lib.rs 1300-1342). -/
def load_extension_alias (fs : FileSystemModel) (o : ResolveOptions) :
    Nat → Path → Ctx → Except ResolveError (Option Path) × Ctx
  | 0, _, ctx => (.error .recursion, ctx)
  | fuel + 1, cached_path, ctx =>
    if o.extension_alias.isEmpty then (.ok none, ctx)
    else
      match pathExtension cached_path with
      | none => (.ok none, ctx)
      | some path_extension =>
        match o.extension_alias.find? (fun kv => trimStartChar '.' kv.1 == path_extension) with
        | none => (.ok none, ctx)
        | some (_, extensions) =>
          match lastComp cached_path with
          | none => (.ok none, ctx)
          | some filename =>
            let ctx := ctx.with_fully_specified true
            match load_extension_alias_go fs o fuel cached_path extensions ctx with
            | (.error e, ctx) => (.error e, ctx)
            | (.ok (some p), ctx) => (.ok (some p), ctx.with_fully_specified false)
            | (.ok none, ctx) =>
              let (is_f, ctx) := cacheIsFile fs cached_path ctx
              if !is_f then (.ok none, ctx.with_fully_specified false)
              else if !check_restrictions o cached_path then (.ok none, ctx)
              else
                let dir := (parentPath cached_path).getD []
                let stem := stemWithoutExt filename
                let files := intercalateChar ',' (extensions.map (fun e => stem ++ e))
                (.error (.extensionAlias filename files dir), ctx)

/-- Extension loop of `load_extension_alias` (lib.rs 1318-1324). -/
def load_extension_alias_go (fs : FileSystemModel) (o : ResolveOptions) :
    Nat → Path → List Str → Ctx → Except ResolveError (Option Path) × Ctx
  | 0, _, _, ctx => (.error .recursion, ctx)
  | fuel + 1, cached_path, extensions, ctx =>
    match extensions with
    | [] => (.ok none, ctx)
    | extension :: rest =>
      let cp2 := replace_extension cached_path extension
      match load_alias_or_file fs o fuel cp2 ctx with
      | (.error e, ctx) => (.error e, ctx)
      | (.ok (some p), ctx) => (.ok (some p), ctx)
      | (.ok none, ctx) => load_extension_alias_go fs o fuel cached_path rest ctx

/-- Translation of `Resolver::load_roots` (lib.rs 1350-1376): failures of the
per-root relative retries are swallowed. -/
def load_roots (fs : FileSystemModel) (o : ResolveOptions) :
    Nat → Path → Str → Ctx → Option Path × Ctx
  | 0, _, _, ctx => (none, ctx)
  | fuel + 1, cached_path, specifier, ctx =>
    if o.roots.isEmpty then (none, ctx)
    else
      match specifier with
      | '/' :: rest =>
        if rest = [] then
          if o.roots.contains cached_path then
            match require_relative fs o fuel cached_path "./".toList ctx with
            | (.ok p, ctx) => (some p, ctx)
            | (.error _, ctx) => (none, ctx)
          else (none, ctx)
        else load_roots_go fs o fuel o.roots rest ctx
      | _ => (none, ctx)

/-- Root loop of `load_roots` (lib.rs 1367-1372). -/
def load_roots_go (fs : FileSystemModel) (o : ResolveOptions) :
    Nat → List Path → Str → Ctx → Option Path × Ctx
  | 0, _, _, ctx => (none, ctx)
  | fuel + 1, roots, specifier, ctx =>
    match roots with
    | [] => (none, ctx)
    | root :: rest =>
      match require_relative fs o fuel root specifier ctx with
      | (.ok p, ctx) => (some p, ctx)
      | (.error _, ctx) => load_roots_go fs o fuel rest specifier ctx

/-- Translation of `Resolver::load_tsconfig_paths` (lib.rs 1466-1489): the
loaded tsconfig produces candidate paths, each tried as file or directory. -/
def load_tsconfig_paths (fs : FileSystemModel) (o : ResolveOptions) :
    Nat → Path → Str → Ctx → Except ResolveError (Option Path) × Ctx
  | 0, _, _, ctx => (.error .recursion, ctx)
  | fuel + 1, _cached_path, specifier, ctx =>
    match o.tsconfig with
    | none => (.ok none, ctx)
    | some tc =>
      load_tsconfig_paths_go fs o fuel (tc.resolvePaths specifier) ctx

/-- Candidate loop of `load_tsconfig_paths` (lib.rs 1482-1487). -/
def load_tsconfig_paths_go (fs : FileSystemModel) (o : ResolveOptions) :
    Nat → List Path → Ctx → Except ResolveError (Option Path) × Ctx
  | 0, _, ctx => (.error .recursion, ctx)
  | fuel + 1, paths, ctx =>
    match paths with
    | [] => (.ok none, ctx)
    | path :: rest =>
      match load_as_file_or_directory fs o fuel path ['.'] ctx with
      | (.error e, ctx) => (.error e, ctx)
      | (.ok (some p), ctx) => (.ok (some p), ctx)
      | (.ok none, ctx) => load_tsconfig_paths_go fs o fuel rest ctx

/-- Translation of `Resolver::package_resolve` (lib.rs 1519-1583). -/
def package_resolve (fs : FileSystemModel) (o : ResolveOptions) :
    Nat → Path → Str → Ctx → Except ResolveError Path × Ctx
  | 0, _, _, ctx => (.error .recursion, ctx)
  | fuel + 1, cached_path, specifier, ctx =>
    let (package_name, subpath) := parse_package_specifier specifier
    match require_core o package_name with
    | some e => (.error e, ctx)
    | none =>
      match package_resolve_mods fs o fuel cached_path specifier package_name subpath
          o.modules ctx with
      | (.error e, ctx) => (.error e, ctx)
      | (.ok (some p), ctx) => (.ok p, ctx)
      | (.ok none, ctx) => (.error (.notFound specifier), ctx)

/-- Loop of `package_resolve` over `options.modules`. -/
def package_resolve_mods (fs : FileSystemModel) (o : ResolveOptions) :
    Nat → Path → Str → Str → Str → List Str → Ctx →
    Except ResolveError (Option Path) × Ctx
  | 0, _, _, _, _, _, ctx => (.error .recursion, ctx)
  | fuel + 1, cached_path, specifier, package_name, subpath, modules, ctx =>
    match modules with
    | [] => (.ok none, ctx)
    | module_name :: rest =>
      match package_resolve_walk fs o fuel module_name cached_path specifier
          package_name subpath ctx with
      | (.error e, ctx) => (.error e, ctx)
      | (.ok (some p), ctx) => (.ok (some p), ctx)
      | (.ok none, ctx) =>
        package_resolve_mods fs o fuel cached_path specifier package_name subpath
          rest ctx

/-- Ancestor walk of `package_resolve` (lib.rs 1533-1579). -/
def package_resolve_walk (fs : FileSystemModel) (o : ResolveOptions) :
    Nat → Str → Path → Str → Str → Str → Ctx →
    Except ResolveError (Option Path) × Ctx
  | 0, _, _, _, _, _, ctx => (.error .recursion, ctx)
  | fuel + 1, module_name, current, specifier, package_name, subpath, ctx =>
    match get_module_directory fs current module_name ctx with
    | (none, ctx) =>
      package_resolve_next fs o fuel module_name current specifier package_name
        subpath ctx
    | (some module_dir, ctx) =>
      let cached_path := normalize_with module_dir package_name
      let (b, ctx) := cacheIsDir fs cached_path ctx
      if b then
        let step1 : Except ResolveError (Option Path) × Ctx :=
          match cacheGetPackageJson fs cached_path ctx with
          | (some (_, package_json), ctx) =>
            match package_resolve_exports fs o fuel cached_path ('.' :: subpath)
                (package_json.exports_fields o.exports_fields) ctx with
            | (.error e, ctx) => (.error e, ctx)
            | (.ok (some p), ctx) => (.ok (some p), ctx)
            | (.ok none, ctx) =>
              if subpath = ['.'] then
                let (r, ctx) := package_resolve_mains fs o cached_path
                  (package_json.main_fields o.main_fields) ctx
                (.ok r, ctx)
              else (.ok none, ctx)
          | (none, ctx) => (.ok none, ctx)
        match step1 with
        | (.error e, ctx) => (.error e, ctx)
        | (.ok (some p), ctx) => (.ok (some p), ctx)
        | (.ok none, ctx) =>
          let subpath2 := '.' :: subpath
          let ctx := ctx.with_fully_specified false
          match require fs o fuel cached_path subpath2 ctx with
          | (.ok p, ctx) => (.ok (some p), ctx)
          | (.error e, ctx) => (.error e, ctx)
      else
        package_resolve_next fs o fuel module_name current specifier package_name
          subpath ctx

/-- Exports loop of `package_resolve` (lib.rs 1550-1559): matches return the
resolved path directly, without `RESOLVE_ESM_MATCH`. -/
def package_resolve_exports (fs : FileSystemModel) (o : ResolveOptions) :
    Nat → Path → Str → List ImportsExportsEntry → Ctx →
    Except ResolveError (Option Path) × Ctx
  | 0, _, _, _, ctx => (.error .recursion, ctx)
  | fuel + 1, package_url, subpath, entries, ctx =>
    match entries with
    | [] => (.ok none, ctx)
    | exports :: rest =>
      match package_exports_resolve fs o fuel package_url subpath exports ctx with
      | (.error e, ctx) => (.error e, ctx)
      | (.ok (some p), ctx) => (.ok (some p), ctx)
      | (.ok none, ctx) => package_resolve_exports fs o fuel package_url subpath rest ctx

/-- Step to the parent directory in the ancestor walk of `package_resolve`. -/
def package_resolve_next (fs : FileSystemModel) (o : ResolveOptions) :
    Nat → Str → Path → Str → Str → Str → Ctx →
    Except ResolveError (Option Path) × Ctx
  | 0, _, _, _, _, _, ctx => (.error .recursion, ctx)
  | fuel + 1, module_name, current, specifier, package_name, subpath, ctx =>
    match parentPath current with
    | none => (.ok none, ctx)
    | some pp =>
      package_resolve_walk fs o fuel module_name pp specifier package_name subpath ctx

/-- Translation of `Resolver::package_exports_resolve` (lib.rs 1586-1685). -/
def package_exports_resolve (fs : FileSystemModel) (o : ResolveOptions) :
    Nat → Path → Str → ImportsExportsEntry → Ctx →
    Except ResolveError (Option Path) × Ctx
  | 0, _, _, _, ctx => (.error .recursion, ctx)
  | fuel + 1, package_url, subpath, exports, ctx =>
    let conditions := o.condition_names
    if (match exports.as_map with
        | some m => hasMixedKeys m
        | none => false) then
      (.error (.invalidPackageConfig (package_url ++ [pkgJsonName])), ctx)
    else if subpath = ['.'] then
      if ctx.query.isSome || ctx.fragment.isSome then
        let q := ctx.query.getD []
        let f := ctx.fragment.getD []
        (.error (.packagePathNotExported
          ("./".toList ++ trimStartChar '.' subpath ++ q ++ f)
          (package_url ++ [pkgJsonName])), ctx)
      else
        let main_export : Option ImportsExportsEntry :=
          if exports.isStringOrArray then some exports
          else
            match exports.as_map with
            | some m =>
              match alistGet ['.'] m with
              | some entry => some entry
              | none =>
                if m.any (fun kv => hasPre "./".toList kv.1 || hasPre ['#'] kv.1) then none
                else some exports
            | none => none
        match main_export with
        | some me =>
          match package_target_resolve fs o fuel package_url ['.'] me none false
              conditions ctx with
          | (.error e, ctx) => (.error e, ctx)
          | (.ok (some p), ctx) => (.ok (some p), ctx)
          | (.ok none, ctx) =>
            package_exports_resolve_expansion fs o fuel package_url subpath exports
              conditions ctx
        | none =>
          package_exports_resolve_expansion fs o fuel package_url subpath exports
            conditions ctx
    else
      package_exports_resolve_expansion fs o fuel package_url subpath exports
        conditions ctx

/-- Steps 3-4 of `package_exports_resolve` (lib.rs 1662-1684): pattern
expansion over an object exports map, else `PackagePathNotExported`. -/
def package_exports_resolve_expansion (fs : FileSystemModel) (o : ResolveOptions) :
    Nat → Path → Str → ImportsExportsEntry → List Str → Ctx →
    Except ResolveError (Option Path) × Ctx
  | 0, _, _, _, _, ctx => (.error .recursion, ctx)
  | fuel + 1, package_url, subpath, exports, conditions, ctx =>
    match exports.as_map with
    | some m =>
      match package_imports_exports_resolve fs o fuel subpath m package_url false
          conditions ctx with
      | (.error e, ctx) => (.error e, ctx)
      | (.ok (some p), ctx) => (.ok (some p), ctx)
      | (.ok none, ctx) =>
        (.error (.packagePathNotExported subpath (package_url ++ [pkgJsonName])), ctx)
    | none =>
      (.error (.packagePathNotExported subpath (package_url ++ [pkgJsonName])), ctx)

/-- Translation of `Resolver::package_imports_resolve` (lib.rs 1688-1739). -/
def package_imports_resolve (fs : FileSystemModel) (o : ResolveOptions) :
    Nat → Str → Path → PackageJson → Ctx → Except ResolveError (Option Path) × Ctx
  | 0, _, _, _, ctx => (.error .recursion, ctx)
  | fuel + 1, specifier, pj_dir, package_json, ctx =>
    match package_json.imports_fields o.imports_fields with
    | [] => (.ok none, ctx)
    | imports_list =>
      if specifier = ['#'] ∨ hasPre "#/".toList specifier then
        (.error (.invalidModuleSpecifier specifier (pj_dir ++ [pkgJsonName])), ctx)
      else
        package_imports_resolve_go fs o fuel specifier pj_dir imports_list ctx

/-- Imports-field loop of `package_imports_resolve` (lib.rs 1706-1738):
exhaustion is `PackageImportNotDefined`. -/
def package_imports_resolve_go (fs : FileSystemModel) (o : ResolveOptions) :
    Nat → Str → Path → List (List (Str × ImportsExportsEntry)) → Ctx →
    Except ResolveError (Option Path) × Ctx
  | 0, _, _, _, ctx => (.error .recursion, ctx)
  | fuel + 1, specifier, pj_dir, imports_list, ctx =>
    match imports_list with
    | [] =>
      (.error (.packageImportNotDefined specifier (pj_dir ++ [pkgJsonName])), ctx)
    | imports :: rest =>
      match package_imports_exports_resolve fs o fuel specifier imports pj_dir true
          o.condition_names ctx with
      | (.error e, ctx) => (.error e, ctx)
      | (.ok (some p), ctx) => (.ok (some p), ctx)
      | (.ok none, ctx) => package_imports_resolve_go fs o fuel specifier pj_dir rest ctx

/-- Translation of `Resolver::package_imports_exports_resolve`
(lib.rs 1741-1824). -/
def package_imports_exports_resolve (fs : FileSystemModel) (o : ResolveOptions) :
    Nat → Str → List (Str × ImportsExportsEntry) → Path → Bool → List Str → Ctx →
    Except ResolveError (Option Path) × Ctx
  | 0, _, _, _, _, _, ctx => (.error .recursion, ctx)
  | fuel + 1, match_key, match_obj, package_url, is_imports, conditions, ctx =>
    if hasSuf ['/'] match_key then (.ok none, ctx)
    else
      match (if !containsChar '*' match_key then alistGet match_key match_obj else none) with
      | some target =>
        package_target_resolve fs o fuel package_url match_key target none is_imports
          conditions ctx
      | none =>
        match best_match_fold match_key ([], [], none) match_obj with
        | (best_key, best_match, some best_target) =>
          package_target_resolve fs o fuel package_url best_key best_target
            (some best_match) is_imports conditions ctx
        | (_, _, none) => (.ok none, ctx)

/-- Translation of `Resolver::package_target_resolve` (lib.rs 1826-1974),
string and null targets; object and array targets are the helpers below. -/
def package_target_resolve (fs : FileSystemModel) (o : ResolveOptions) :
    Nat → Path → Str → ImportsExportsEntry → Option Str → Bool → List Str → Ctx →
    Except ResolveError (Option Path) × Ctx
  | 0, _, _, _, _, _, _, ctx => (.error .recursion, ctx)
  | fuel + 1, package_url, target_key, target, pattern_match, is_imports, conditions,
      ctx =>
    match target with
    | .str starget =>
      match specifierParse starget with
      | .error e => (.error (.specifier e), ctx)
      | .ok parsed =>
        let ctx := ctx.with_query_fragment parsed.query parsed.fragment
        let t := parsed.path
        if !hasPre "./".toList t then
          if !is_imports || hasPre "../".toList t || t.head? = some '/' then
            (.error (.invalidPackageTarget t target_key
              (package_url ++ [pkgJsonName])), ctx)
          else
            match normalize_string_target target_key t pattern_match package_url with
            | .error e => (.error e, ctx)
            | .ok t2 =>
              match package_resolve fs o fuel package_url t2 ctx with
              | (.ok p, ctx) => (.ok (some p), ctx)
              | (.error e, ctx) => (.error e, ctx)
        else
          match normalize_string_target target_key t pattern_match package_url with
          | .error e => (.error e, ctx)
          | .ok t2 =>
            if is_invalid_exports_target t2 then
              (.error (.invalidPackageTarget t2 target_key
                (package_url ++ [pkgJsonName])), ctx)
            else (.ok (some (normalize_with package_url t2)), ctx)
    | .map entries =>
      package_target_resolve_map fs o fuel package_url target_key entries
        pattern_match is_imports conditions ctx
    | .arr targets =>
      if targets.isEmpty then
        (.error (.packagePathNotExported (pattern_match.getD ['.'])
          (package_url ++ [pkgJsonName])), ctx)
      else
        package_target_resolve_arr fs o fuel package_url target_key targets 0
          targets.length pattern_match is_imports conditions ctx
    | .null => (.ok none, ctx)

/-- Object-target loop of `package_target_resolve` (lib.rs 1908-1933):
the first key equal to `default` or among the conditions whose value
resolves wins; an exhausted object is `None`. -/
def package_target_resolve_map (fs : FileSystemModel) (o : ResolveOptions) :
    Nat → Path → Str → List (Str × ImportsExportsEntry) → Option Str → Bool →
    List Str → Ctx → Except ResolveError (Option Path) × Ctx
  | 0, _, _, _, _, _, _, ctx => (.error .recursion, ctx)
  | fuel + 1, package_url, target_key, entries, pattern_match, is_imports, conditions,
      ctx =>
    match entries with
    | [] => (.ok none, ctx)
    | (key, target_value) :: rest =>
      if key = "default".toList ∨ conditions.contains key then
        match package_target_resolve fs o fuel package_url target_key target_value
            pattern_match is_imports conditions ctx with
        | (.error e, ctx) => (.error e, ctx)
        | (.ok (some p), ctx) => (.ok (some p), ctx)
        | (.ok none, ctx) =>
          package_target_resolve_map fs o fuel package_url target_key rest
            pattern_match is_imports conditions ctx
      else
        package_target_resolve_map fs o fuel package_url target_key rest
          pattern_match is_imports conditions ctx

/-- Array-target loop of `package_target_resolve` (lib.rs 1945-1967),
with the source's guard `resolved.is_err() && i == targets.len()` kept
verbatim; `i` counts from `0` and `len` is the full length. -/
def package_target_resolve_arr (fs : FileSystemModel) (o : ResolveOptions) :
    Nat → Path → Str → List ImportsExportsEntry → Nat → Nat → Option Str → Bool →
    List Str → Ctx → Except ResolveError (Option Path) × Ctx
  | 0, _, _, _, _, _, _, _, _, ctx => (.error .recursion, ctx)
  | fuel + 1, package_url, target_key, targets, i, len, pattern_match, is_imports,
      conditions, ctx =>
    match targets with
    | [] => (.ok none, ctx)
    | target_value :: rest =>
      match package_target_resolve fs o fuel package_url target_key target_value
          pattern_match is_imports conditions ctx with
      | (.error e, ctx) =>
        if i = len then (.error e, ctx)
        else
          package_target_resolve_arr fs o fuel package_url target_key rest (i + 1) len
            pattern_match is_imports conditions ctx
      | (.ok (some p), ctx) => (.ok (some p), ctx)
      | (.ok none, ctx) =>
        package_target_resolve_arr fs o fuel package_url target_key rest (i + 1) len
          pattern_match is_imports conditions ctx

end

/-! ### Wrapping: module type, package.json attachment, public entry points -/

/-- Translation of `Resolver::esm_file_format` (lib.rs 2063-2113). -/
def esm_file_format (fs : FileSystemModel) (o : ResolveOptions) (cached_path : Path)
    (ctx : Ctx) : Option ModuleType × Ctx :=
  if !o.module_type then (none, ctx)
  else
    match pathExtension cached_path with
    | some ext =>
      if ext = "mjs".toList ∨ ext = "mts".toList then (some .module, ctx)
      else if ext = "cjs".toList ∨ ext = "cts".toList then (some .commonjs, ctx)
      else if ext = "json".toList then (some .json, ctx)
      else if ext = "wasm".toList then (some .wasm, ctx)
      else if ext = "node".toList then (some .addon, ctx)
      else if ext = "js".toList ∨ ext = "ts".toList then
        match find_package_json fs cached_path ctx with
        | (some (_, package_json), ctx) =>
          (match package_json.ptype with
            | some .module => some ModuleType.module
            | some .commonjs => some ModuleType.commonjs
            | none => none,
           ctx)
        | (none, ctx) => (none, ctx)
      else (none, ctx)
    | none => (none, ctx)

/-- One visit of the `find_package_json_for_a_package` walk (lib.rs 311-316):
probe `is_dir`, and overwrite `last` when a `package.json` is found here. -/
def fpjfapStep (fs : FileSystemModel) (cp : Path)
    (last : Option (Path × PackageJson)) (ctx : Ctx) :
    Option (Path × PackageJson) × Ctx :=
  let bd := cacheIsDir fs cp ctx
  if bd.1 then
    match cacheGetPackageJson fs cp bd.2 with
    | (some v, ctx) => (some v, ctx)
    | (none, ctx) => (last, ctx)
  else (last, bd.2)

/-- Walk of `find_package_json_for_a_package` inside `node_modules`
(lib.rs 304-319): visit ancestors until the `node_modules` boundary, keeping
the last `package.json` seen.  Fueled by the path length. -/
def fpjfapWalk (fs : FileSystemModel) :
    Nat → Path → Option (Path × PackageJson) → Ctx → Option (Path × PackageJson) × Ctx
  | 0, _, last, ctx => (last, ctx)
  | n + 1, cp, last, ctx =>
    if is_node_modules cp then (last, ctx)
    else
      let lc := fpjfapStep fs cp last ctx
      match parentPath cp with
      | none => lc
      | some pp => fpjfapWalk fs n pp lc.1 lc.2

/-- Translation of `Resolver::find_package_json_for_a_package`
(lib.rs 296-325). -/
def find_package_json_for_a_package (fs : FileSystemModel) (cached_path : Path)
    (ctx : Ctx) : Option (Path × PackageJson) × Ctx :=
  if inside_node_modules cached_path then
    fpjfapWalk fs (cached_path.length + 1) cached_path none ctx
  else find_package_json fs cached_path ctx

/-- Model of `Resolver::load_realpath` (lib.rs 746-752): the snapshot file
system has no symlinks, so `Cache::canonicalize` is the identity. -/
def load_realpath (o : ResolveOptions) (p : Path) : Path :=
  if o.symlinks then p else p

/-- The successful return value (spec section 3, `resolution.rs`). -/
structure Resolution where
  path : Path
  query : Option Str
  fragment : Option Str
  package_json : Option (Path × PackageJson)
  module_type : Option ModuleType

/-- Translation of `Resolver::resolve_impl` (lib.rs 258-294). -/
def resolve_impl (fs : FileSystemModel) (o : ResolveOptions) (fuel : Nat)
    (path : Path) (specifier : Str) (ctx : Ctx) :
    Except ResolveError Resolution × Ctx :=
  let ctx := ctx.with_fully_specified o.fully_specified
  let cached_path := if o.symlinks then load_realpath o path else path
  match require fs o fuel cached_path specifier ctx with
  | (.error e, ctx) => (.error e, ctx)
  | (.ok cached_path, ctx) =>
    let rpath := if o.symlinks then load_realpath o cached_path else cached_path
    let pr := find_package_json_for_a_package fs cached_path ctx
    let mr := esm_file_format fs o cached_path pr.2
    (.ok { path := rpath, query := mr.2.query, fragment := mr.2.fragment,
           package_json := pr.1, module_type := mr.1 },
     { mr.2 with query := none, fragment := none })

/-- Translation of `Resolver::resolve` (lib.rs 184-191): options are
sanitized at construction (`Resolver::new`), the context starts fresh. -/
def resolve (fs : FileSystemModel) (o : ResolveOptions) (fuel : Nat)
    (directory : Path) (specifier : Str) : Except ResolveError Resolution :=
  (resolve_impl fs (sanitize o) fuel directory specifier Ctx.default).1

/-- Context returned from the `resolve_with_context` API (lib.rs 106-113). -/
structure ResolveContext where
  file_dependencies : List Path := []
  missing_dependencies : List Path := []
deriving DecidableEq, Repr

/-- Translation of `Resolver::resolve_with_context` (lib.rs 219-235):
initialize the per-call dependency sets, resolve, and extend the
caller-supplied sets with the recorded dependencies. -/
def resolve_with_context (fs : FileSystemModel) (o : ResolveOptions) (fuel : Nat)
    (directory : Path) (specifier : Str) (resolve_context : ResolveContext) :
    Except ResolveError Resolution × ResolveContext :=
  let r := resolve_impl fs (sanitize o) fuel directory specifier
    Ctx.default.init_file_dependencies
  (r.1,
   { resolve_context with
     file_dependencies :=
       resolve_context.file_dependencies ++ r.2.file_dependencies.getD []
     missing_dependencies :=
       resolve_context.missing_dependencies ++ r.2.missing_dependencies.getD [] })

/-! ### Helper lemmas -/

theorem containsChar_of_count_pos (ch : Char) :
    ∀ {s : Str}, 0 < countChar ch s → containsChar ch s = true := by
  intro s
  induction s with
  | nil => intro h; simp [countChar] at h
  | cons c rest ih =>
    intro h
    by_cases hc : c = ch
    · simp [containsChar, hc]
    · simp [countChar, hc] at h
      simp [containsChar, hc, ih h]

theorem ne_nil_of_contains {ch : Char} {s : Str} (h : containsChar ch s = true) :
    s ≠ [] := by
  cases s with
  | nil => simp [containsChar] at h
  | cons c rest => simp

/-- On keys that both contain `*`, `pattern_key_compare` is the reversed
lexicographic comparison of `(baseLength, length)`. -/
theorem pattern_key_compare_star (a b : Str)
    (ca : containsChar '*' a = true) (cb : containsChar '*' b = true) :
    pattern_key_compare a b =
      if patternBaseLen a > patternBaseLen b then .lt
      else if patternBaseLen b > patternBaseLen a then .gt
      else if a.length > b.length then .lt
      else if b.length > a.length then .gt
      else .eq := by
  have hne : a ≠ [] := ne_nil_of_contains ca
  simp [pattern_key_compare, hne, ca, cb]

/-- `pattern_key_compare a b ≠ .gt` on starred keys means `a` is at least as
specific as `b`. -/
theorem pattern_key_compare_star_ne_gt (a b : Str)
    (ca : containsChar '*' a = true) (cb : containsChar '*' b = true) :
    pattern_key_compare a b ≠ .gt ↔
      (patternBaseLen b < patternBaseLen a ∨
        (patternBaseLen a = patternBaseLen b ∧ b.length ≤ a.length)) := by
  rw [pattern_key_compare_star a b ca cb]
  split_ifs <;> simp <;> omega

/-! ### Claim C1 -/

/-- C1: in `package_target_resolve`, an array target whose final element's
resolution yields an error is claimed to return that error; the source's
guard `resolved.is_err() && i == targets.len()` compares the 0-based index
with the full length and can never fire, so the code falls through the loop
and returns no match instead.  The first conjunct evaluates the array case at
a one-element array (its only element is also its final element), the second
shows that very element resolves to an `InvalidPackageTarget` error: the code
returns `Ok(None)` where the claim (and the source's own comment "Return or
throw the last fallback resolution null return or error") requires the error. -/
theorem c1_code_bug_eval :
    (package_target_resolve {} {} 40 ["p".toList] "./x".toList
      (.arr [.str "/bad".toList]) none false [] Ctx.default).1 = .ok none
    ∧ (package_target_resolve {} {} 40 ["p".toList] "./x".toList
      (.str "/bad".toList) none false [] Ctx.default).1 =
      .error (.invalidPackageTarget "/bad".toList "./x".toList
        ["p".toList, "package.json".toList]) :=
  ⟨rfl, rfl⟩

/-! ### Claim C5 -/

/-- File system of spec scenario 5: the single file `/r/libs/x.js`. -/
def c5_fs : FileSystemModel :=
  { files := [["r".toList, "libs".toList, "x.js".toList]],
    dirs := [[], ["r".toList], ["r".toList, "libs".toList]] }

/-- Options of spec scenario 5: `alias={"#lib/*": ["./libs/*"]}`. -/
def c5_opts : ResolveOptions :=
  { «alias» := [("#lib/*".toList, [.path "./libs/*".toList])] }

/-- Scenario 5 with the alias value replaced by `Ignore`. -/
def c5_opts_ignore : ResolveOptions :=
  { «alias» := [("#lib/*".toList, [.ignore])] }

/-- C5 counterexample: with the alias value replaced by `Ignore`,
`resolve("/r", "#lib/x")` returns `Ignored(/r/#lib/*)` — the alias key joined
onto the directory (lib.rs 1213-1215 normalizes `alias_key`, not the
request) — and that path differs from the claimed `/r/#lib/x`. -/
theorem c5_counterexample :
    resolve c5_fs c5_opts_ignore 40 ["r".toList] "#lib/x".toList =
      .error (.ignored ["r".toList, "#lib".toList, "*".toList])
    ∧ (ResolveError.ignored ["r".toList, "#lib".toList, "*".toList] ≠
        .ignored ["r".toList, "#lib".toList, "x".toList]) :=
  ⟨rfl, by decide⟩

/-- C5 amended: `resolve("/r", "#lib/x")` succeeds with `/r/libs/x.js`; with
the alias value replaced by `Ignore` the same call returns `Ignored` carrying
`/r/#lib/*`, the wildcard alias key joined onto the directory. -/
theorem c5_amended_eval :
    resolve c5_fs c5_opts 40 ["r".toList] "#lib/x".toList =
      .ok { path := ["r".toList, "libs".toList, "x.js".toList], query := none,
            fragment := none, package_json := none, module_type := none }
    ∧ resolve c5_fs c5_opts_ignore 40 ["r".toList] "#lib/x".toList =
      .error (.ignored ["r".toList, "#lib".toList, "*".toList]) :=
  ⟨rfl, rfl⟩

/-! ### Claim C7 -/

/-- C7 counterexample: `pattern_key_compare` is not the claimed total order.
On the baseLen tie `"./a/"` versus `"./a*"` the key without `*` loses
(result `Greater`), where the claim's tie rule demands `Less`; moreover the
comparison of a `/`-terminated well-formed key with itself is `Greater`, not
`Equal`, and `"./a/"` versus `"./b/"` is `Greater` in both orders, so the
function is neither reflexive nor antisymmetric on well-formed keys. -/
theorem c7_counterexample :
    pattern_key_compare "./a/".toList "./a*".toList = .gt
    ∧ pattern_key_compare "./a/".toList "./a/".toList = .gt
    ∧ pattern_key_compare "./a/".toList "./b/".toList = .gt
    ∧ pattern_key_compare "./b/".toList "./a/".toList = .gt :=
  ⟨rfl, rfl, rfl, rfl⟩

/-- C7 amended: `pattern_key_compare` computes: the empty first key ranks
lowest; larger baseLen compares `Less` (wins); on baseLen ties a key **with**
`*` beats a key without (the starless key compares `Greater`); on remaining
ties the longer key compares `Less`; otherwise `Equal`.  Restricted to keys
containing exactly one `*` it is a lawful total preorder: reflexively
`Equal`, swap-consistent, and transitive in `≠ Greater`. -/
theorem c7_amended :
    (∀ a b : Str, a ≠ [] → containsChar '*' a = false → containsChar '*' b = true →
      patternBaseLen a = patternBaseLen b →
      pattern_key_compare a b = .gt ∧ pattern_key_compare b a = .lt)
    ∧ (∀ a : Str, countChar '*' a = 1 → pattern_key_compare a a = .eq)
    ∧ (∀ a b : Str, countChar '*' a = 1 → countChar '*' b = 1 →
      pattern_key_compare b a = (pattern_key_compare a b).swap)
    ∧ (∀ a b c : Str, countChar '*' a = 1 → countChar '*' b = 1 →
      countChar '*' c = 1 → pattern_key_compare a b ≠ .gt →
      pattern_key_compare b c ≠ .gt → pattern_key_compare a c ≠ .gt) := by
  refine ⟨?_, ?_, ?_, ?_⟩
  · intro a b hne hca hcb hbl
    constructor <;>
      simp [pattern_key_compare, hne, ne_nil_of_contains hcb, hca, hcb, hbl]
  · intro a ha
    have ca := containsChar_of_count_pos '*' (ha ▸ Nat.one_pos)
    rw [pattern_key_compare_star a a ca ca]
    simp
  · intro a b ha hb
    have ca := containsChar_of_count_pos '*' (ha ▸ Nat.one_pos)
    have cb := containsChar_of_count_pos '*' (hb ▸ Nat.one_pos)
    rw [pattern_key_compare_star a b ca cb, pattern_key_compare_star b a cb ca]
    split_ifs <;> first | rfl | omega
  · intro a b c ha hb hc h1 h2
    have ca := containsChar_of_count_pos '*' (ha ▸ Nat.one_pos)
    have cb := containsChar_of_count_pos '*' (hb ▸ Nat.one_pos)
    have cc := containsChar_of_count_pos '*' (hc ▸ Nat.one_pos)
    rw [pattern_key_compare_star_ne_gt a b ca cb] at h1
    rw [pattern_key_compare_star_ne_gt b c cb cc] at h2
    rw [pattern_key_compare_star_ne_gt a c ca cc]
    omega

/-! ### Claim C9 -/

/-- C9: `esm_file_format` returns `None` when `module_type` is disabled, and
otherwise dispatches on the resolved path's extension: `.mjs`/`.mts` are
`Module`, `.cjs`/`.cts` are `CommonJs`, `.json` is `Json`, `.wasm` is `Wasm`,
`.node` is `Addon`, `.js`/`.ts` take the enclosing `package.json`'s `type`
when it is module or commonjs and `None` otherwise, and any other or missing
extension yields `None`. -/
theorem c9_esm_file_format :
    (∀ fs o cp ctx, o.module_type = false →
      esm_file_format fs o cp ctx = (none, ctx))
    ∧ (∀ fs (o : ResolveOptions) cp ctx ext, o.module_type = true →
      pathExtension cp = some ext →
      ext = "mjs".toList ∨ ext = "mts".toList →
      esm_file_format fs o cp ctx = (some .module, ctx))
    ∧ (∀ fs (o : ResolveOptions) cp ctx ext, o.module_type = true →
      pathExtension cp = some ext →
      ext = "cjs".toList ∨ ext = "cts".toList →
      esm_file_format fs o cp ctx = (some .commonjs, ctx))
    ∧ (∀ fs (o : ResolveOptions) cp ctx, o.module_type = true →
      pathExtension cp = some "json".toList →
      esm_file_format fs o cp ctx = (some .json, ctx))
    ∧ (∀ fs (o : ResolveOptions) cp ctx, o.module_type = true →
      pathExtension cp = some "wasm".toList →
      esm_file_format fs o cp ctx = (some .wasm, ctx))
    ∧ (∀ fs (o : ResolveOptions) cp ctx, o.module_type = true →
      pathExtension cp = some "node".toList →
      esm_file_format fs o cp ctx = (some .addon, ctx))
    ∧ (∀ fs (o : ResolveOptions) cp ctx ext, o.module_type = true →
      pathExtension cp = some ext →
      ext = "js".toList ∨ ext = "ts".toList →
      esm_file_format fs o cp ctx =
        (match find_package_json fs cp ctx with
         | (some (_, package_json), ctx) =>
           (match package_json.ptype with
             | some .module => some ModuleType.module
             | some .commonjs => some ModuleType.commonjs
             | none => none,
            ctx)
         | (none, ctx) => (none, ctx)))
    ∧ (∀ fs (o : ResolveOptions) cp ctx ext, o.module_type = true →
      pathExtension cp = some ext →
      ext ≠ "mjs".toList → ext ≠ "mts".toList → ext ≠ "cjs".toList →
      ext ≠ "cts".toList → ext ≠ "json".toList → ext ≠ "wasm".toList →
      ext ≠ "node".toList → ext ≠ "js".toList → ext ≠ "ts".toList →
      esm_file_format fs o cp ctx = (none, ctx))
    ∧ (∀ fs (o : ResolveOptions) cp ctx, o.module_type = true →
      pathExtension cp = none →
      esm_file_format fs o cp ctx = (none, ctx)) := by
  refine ⟨?_, ?_, ?_, ?_, ?_, ?_, ?_, ?_, ?_⟩
  · intro fs o cp ctx hmt
    unfold esm_file_format
    rw [hmt]
    exact rfl
  · intro fs o cp ctx ext hmt hext hcase
    rcases hcase with h | h <;> subst h <;>
      (unfold esm_file_format; rw [hmt, hext]; exact rfl)
  · intro fs o cp ctx ext hmt hext hcase
    rcases hcase with h | h <;> subst h <;>
      (unfold esm_file_format; rw [hmt, hext]; exact rfl)
  · intro fs o cp ctx hmt hext
    unfold esm_file_format; rw [hmt, hext]; exact rfl
  · intro fs o cp ctx hmt hext
    unfold esm_file_format; rw [hmt, hext]; exact rfl
  · intro fs o cp ctx hmt hext
    unfold esm_file_format; rw [hmt, hext]; exact rfl
  · intro fs o cp ctx ext hmt hext hcase
    rcases hcase with h | h <;> subst h <;>
      (unfold esm_file_format; rw [hmt, hext]; exact rfl)
  · intro fs o cp ctx ext hmt hext h1 h2 h3 h4 h5 h6 h7 h8 h9
    unfold esm_file_format
    rw [hmt, hext]
    simp at h1 h2 h3 h4 h5 h6 h7 h8 h9
    simp [h1, h2, h3, h4, h5, h6, h7, h8, h9]
  · intro fs o cp ctx hmt hext
    unfold esm_file_format; rw [hmt, hext]; exact rfl

/-- File system for the C9 witness: `/a` holds a `package.json` with
`"type": "module"`. -/
def c9_fs : FileSystemModel :=
  { dirs := [[], ["a".toList]],
    pkg_jsons := [(["a".toList], { ptype := some .module })] }

/-- C9 instantiated on concrete extensions, including a `.js` file under a
`"type": "module"` package scope. -/
theorem c9_witness :
    esm_file_format {} {} ["a".toList, "m.js".toList] Ctx.default =
      (none, Ctx.default)
    ∧ esm_file_format {} { module_type := true } ["a.mjs".toList] Ctx.default =
      (some .module, Ctx.default)
    ∧ esm_file_format {} { module_type := true } ["a.cts".toList] Ctx.default =
      (some .commonjs, Ctx.default)
    ∧ esm_file_format {} { module_type := true } ["a.json".toList] Ctx.default =
      (some .json, Ctx.default)
    ∧ esm_file_format {} { module_type := true } ["a.wasm".toList] Ctx.default =
      (some .wasm, Ctx.default)
    ∧ esm_file_format {} { module_type := true } ["a.node".toList] Ctx.default =
      (some .addon, Ctx.default)
    ∧ esm_file_format c9_fs { module_type := true }
        ["a".toList, "m.js".toList] Ctx.default =
      (match find_package_json c9_fs ["a".toList, "m.js".toList] Ctx.default with
       | (some (_, package_json), ctx) =>
         (match package_json.ptype with
           | some .module => some ModuleType.module
           | some .commonjs => some ModuleType.commonjs
           | none => none,
          ctx)
       | (none, ctx) => (none, ctx))
    ∧ esm_file_format {} { module_type := true } ["a.css".toList] Ctx.default =
      (none, Ctx.default)
    ∧ esm_file_format {} { module_type := true } ["a".toList] Ctx.default =
      (none, Ctx.default) :=
  ⟨c9_esm_file_format.1 _ _ _ _ rfl,
   c9_esm_file_format.2.1 _ _ _ _ _ rfl rfl (Or.inl rfl),
   c9_esm_file_format.2.2.1 _ _ _ _ _ rfl rfl (Or.inr rfl),
   c9_esm_file_format.2.2.2.1 _ _ _ _ rfl rfl,
   c9_esm_file_format.2.2.2.2.1 _ _ _ _ rfl rfl,
   c9_esm_file_format.2.2.2.2.2.1 _ _ _ _ rfl rfl,
   c9_esm_file_format.2.2.2.2.2.2.1 _ _ _ _ _ rfl rfl (Or.inl rfl),
   c9_esm_file_format.2.2.2.2.2.2.2.1 _ _ _ _ _ rfl rfl (by decide) (by decide)
     (by decide) (by decide) (by decide) (by decide) (by decide) (by decide)
     (by decide),
   c9_esm_file_format.2.2.2.2.2.2.2.2 _ _ _ _ rfl rfl⟩

/-! ### Claim C10 -/

/-- C10: `resolve_with_context` never removes entries from the caller's
`ResolveContext`: every entry present before the call is present afterwards,
the sets after the call are exactly the caller's sets extended with the
dependencies recorded during this call, and a repeated identical call
accumulates the union (recording nothing new the second time). -/
theorem c10_resolve_with_context_extends :
    ∀ fs o fuel d s rc,
      (∀ p, p ∈ rc.file_dependencies →
        p ∈ (resolve_with_context fs o fuel d s rc).2.file_dependencies)
      ∧ (∀ p, p ∈ rc.missing_dependencies →
        p ∈ (resolve_with_context fs o fuel d s rc).2.missing_dependencies)
      ∧ (∀ p, p ∈ (resolve_with_context fs o fuel d s rc).2.file_dependencies ↔
          (p ∈ rc.file_dependencies ∨
            p ∈ ((resolve_impl fs (sanitize o) fuel d s
              Ctx.default.init_file_dependencies).2.file_dependencies.getD [])))
      ∧ (∀ p, p ∈ (resolve_with_context fs o fuel d s rc).2.missing_dependencies ↔
          (p ∈ rc.missing_dependencies ∨
            p ∈ ((resolve_impl fs (sanitize o) fuel d s
              Ctx.default.init_file_dependencies).2.missing_dependencies.getD [])))
      ∧ (∀ p, p ∈ (resolve_with_context fs o fuel d s
            (resolve_with_context fs o fuel d s rc).2).2.file_dependencies ↔
          (p ∈ rc.file_dependencies ∨
            p ∈ ((resolve_impl fs (sanitize o) fuel d s
              Ctx.default.init_file_dependencies).2.file_dependencies.getD []))) := by
  intro fs o fuel d s rc
  refine ⟨?_, ?_, ?_, ?_, ?_⟩
  · intro p hp
    simp [resolve_with_context, List.mem_append]
    exact Or.inl hp
  · intro p hp
    simp [resolve_with_context, List.mem_append]
    exact Or.inl hp
  · intro p
    simp [resolve_with_context, List.mem_append]
  · intro p
    simp [resolve_with_context, List.mem_append]
  · intro p
    simp only [resolve_with_context, List.mem_append, List.getElem_cons_zero]
    tauto

/-- C10 instantiated: a pre-existing entry `/q` survives a resolve that
records other paths. -/
theorem c10_witness :
    (["q".toList] : Path) ∈ (resolve_with_context c5_fs c5_opts 40 ["r".toList]
      "#lib/x".toList
      { file_dependencies := [["q".toList]] }).2.file_dependencies :=
  (c10_resolve_with_context_extends c5_fs c5_opts 40 ["r".toList] "#lib/x".toList
    { file_dependencies := [["q".toList]] }).1 ["q".toList] (by decide)

/-! ### Claim C4 -/

theorem parentPath_ancestor {cp pp : Path} (h : parentPath cp = some pp) :
    pp <+: cp := by
  cases cp with
  | nil => simp [parentPath] at h
  | cons c rest =>
    simp only [parentPath] at h
    cases h
    exact List.dropLast_prefix _

theorem cacheGetPackageJson_dir {fs : FileSystemModel} {cp : Path} {ctx : Ctx}
    {d : Path} {pj : PackageJson} {ctx' : Ctx}
    (h : cacheGetPackageJson fs cp ctx = (some (d, pj), ctx')) : d = cp := by
  unfold cacheGetPackageJson at h
  cases hpal : palistGet cp fs.pkg_jsons <;> rw [hpal] at h <;> simp at h
  exact h.1.1.symm

theorem findPackageJsonAux_dir_ancestor {fs : FileSystemModel} {cp0 : Path} :
    ∀ {n : Nat} {cp : Path} {ctx : Ctx} {res ctx'},
      cp <+: cp0 →
      findPackageJsonAux fs n cp ctx = (res, ctx') →
      ∀ d pj, res = some (d, pj) → d <+: cp0 := by
  intro n
  induction n with
  | zero =>
    intro cp ctx res ctx' _ h d pj hres
    simp [findPackageJsonAux] at h
    rw [← h.1] at hres
    exact absurd hres (by simp)
  | succ n ih =>
    intro cp ctx res ctx' hpre h d pj hres
    unfold findPackageJsonAux at h
    split at h
    · next v ctx2 heq =>
      cases h
      obtain ⟨d2, pj2⟩ := v
      simp only [Option.some.injEq, Prod.mk.injEq] at hres
      obtain ⟨hd, -⟩ := hres
      rw [← hd, cacheGetPackageJson_dir heq]
      exact hpre
    · next ctx2 heq =>
      split at h
      · cases h
        exact absurd hres (by simp)
      · next pp hpp =>
        exact ih ((parentPath_ancestor hpp).trans hpre) h d pj hres

/-- A `fpjfapStep` either keeps `last` or records a `package.json` found at
the visited directory itself. -/
theorem fpjfapStep_fst (fs : FileSystemModel) (cp : Path)
    (last : Option (Path × PackageJson)) (ctx : Ctx) :
    (fpjfapStep fs cp last ctx).1 = last ∨
      ∃ pj, (fpjfapStep fs cp last ctx).1 = some (cp, pj) := by
  unfold fpjfapStep
  dsimp only
  split
  · split
    · next v ctx2 heq =>
      obtain ⟨d2, pj2⟩ := v
      right
      exact ⟨pj2, by simp [cacheGetPackageJson_dir heq]⟩
    · left; rfl
  · left; rfl

theorem fpjfapWalk_dir_ancestor {fs : FileSystemModel} {cp0 : Path} :
    ∀ {n : Nat} {cp : Path} {last} {ctx : Ctx} {res ctx'},
      cp <+: cp0 →
      (∀ d pj, last = some (d, pj) → d <+: cp0) →
      fpjfapWalk fs n cp last ctx = (res, ctx') →
      ∀ d pj, res = some (d, pj) → d <+: cp0 := by
  intro n
  induction n with
  | zero =>
    intro cp last ctx res ctx' _ hlast h d pj hres
    simp only [fpjfapWalk] at h
    cases h
    exact hlast d pj hres
  | succ n ih =>
    intro cp last ctx res ctx' hpre hlast h d pj hres
    have hstep : ∀ d pj, (fpjfapStep fs cp last ctx).1 = some (d, pj) → d <+: cp0 := by
      intro d pj hl
      rcases fpjfapStep_fst fs cp last ctx with hkeep | ⟨pj2, hnew⟩
      · exact hlast d pj (hkeep ▸ hl)
      · rw [hnew] at hl
        simp only [Option.some.injEq, Prod.mk.injEq] at hl
        exact hl.1 ▸ hpre
    unfold fpjfapWalk at h
    split at h
    · cases h
      exact hlast d pj hres
    · split at h
      · rw [show (fpjfapStep fs cp last ctx).1 = res from congrArg Prod.fst h] at hstep
        exact hstep d pj hres
      · next pp hpp =>
        exact ih ((parentPath_ancestor hpp).trans hpre) hstep h d pj hres

/-- The directory of the `package.json` attached by
`find_package_json_for_a_package` is an ancestor of the resolved path. -/
theorem find_package_json_for_a_package_dir_ancestor
    (fs : FileSystemModel) (cp : Path) (ctx : Ctx) :
    ∀ d pj, (find_package_json_for_a_package fs cp ctx).1 = some (d, pj) →
      d <+: cp := by
  intro d pj h
  unfold find_package_json_for_a_package at h
  split at h
  · have hw : fpjfapWalk fs (cp.length + 1) cp none ctx =
        ((fpjfapWalk fs (cp.length + 1) cp none ctx).1,
         (fpjfapWalk fs (cp.length + 1) cp none ctx).2) := Prod.mk.eta.symm
    exact fpjfapWalk_dir_ancestor (List.prefix_refl cp)
      (fun d pj hcontra => absurd hcontra (by simp)) hw d pj h
  · have hw : findPackageJsonAux fs (cp.length + 1) cp ctx =
        ((findPackageJsonAux fs (cp.length + 1) cp ctx).1,
         (findPackageJsonAux fs (cp.length + 1) cp ctx).2) := Prod.mk.eta.symm
    exact findPackageJsonAux_dir_ancestor (List.prefix_refl cp) hw d pj h

/-- C4: whenever `resolve` succeeds and the `Resolution` carries a
`package.json`, the resolved path begins with that package's directory
(component-wise path prefix, as Rust `Path::starts_with`).  This is the
`debug_assert!` of lib.rs 283-285: the attached `package.json` is found by
walking the ancestors of the resolved path. -/
theorem c4_resolution_inside_package :
    ∀ fs o fuel d s r dir pj,
      resolve fs o fuel d s = .ok r →
      r.package_json = some (dir, pj) →
      dir <+: r.path := by
  intro fs o fuel d s r dir pj h hpj
  unfold resolve resolve_impl at h
  simp only [load_realpath, ite_self] at h
  split at h
  · simp at h
  · next cp ctx2 heq =>
    simp only [Prod.fst, Except.ok.injEq] at h
    subst h
    exact find_package_json_for_a_package_dir_ancestor fs cp ctx2 dir pj hpj

/-- File system for the C4 witness: `/a/package.json` and `/a/m.js`. -/
def c4_fs : FileSystemModel :=
  { files := [["a".toList, "m.js".toList]],
    dirs := [[], ["a".toList]],
    pkg_jsons := [(["a".toList], {})] }

/-- C4 instantiated: resolving `./m.js` from `/a` attaches the `/a` package
and the resolved path `/a/m.js` begins with `/a`. -/
theorem c4_witness :
    (["a".toList] : Path) <+: ["a".toList, "m.js".toList] :=
  c4_resolution_inside_package c4_fs {} 40 ["a".toList] "./m.js".toList
    { path := ["a".toList, "m.js".toList], query := none, fragment := none,
      package_json := some (["a".toList], {}), module_type := none }
    ["a".toList] {} rfl rfl

/-! ### Claim C8 -/

/-- C8: when the parsed specifier carries a fragment but no query, `require`
first attempts `{path}{fragment}` as a single path with no fragment in the
context; a success is returned as is, and otherwise the fragment is restored
into the context (threading any dependencies the failed attempt recorded) and
resolution proceeds with `path` alone.  The inner attempt sits one level
deeper in the embedding's fuel discipline, hence `fuel` against `fuel + 1`. -/
theorem c8_fragment_as_path :
    ∀ fs o fuel cp s ctx parsed frag,
      specifierParse s = .ok parsed →
      parsed.fragment = some frag →
      parsed.query = none →
      require fs o (fuel + 2) cp s ctx =
        (match require_without_parse fs o fuel cp (parsed.path ++ frag)
            { ctx with query := none, fragment := none } with
         | (.ok p, ctx2) => (.ok p, ctx2)
         | (.error _, ctx2) =>
           require_without_parse fs o (fuel + 1) cp parsed.path
             { ctx2 with fragment := some frag }) := by
  intro fs o fuel cp s ctx parsed frag hp hf hq
  simp only [require, load_parse, hp, hf, hq, Ctx.with_query_fragment]
  cases hrw : require_without_parse fs o fuel cp (parsed.path ++ frag)
      { ctx with query := none, fragment := none } with
  | mk res ctx2 => cases res <;> simp

/-- File system for the C8 witness: the file `/r/x.js`. -/
def c8_fs : FileSystemModel :=
  { files := [["r".toList, "x.js".toList]], dirs := [[], ["r".toList]] }

/-- C8 instantiated on `./x#f`: the fragment attempt `./x#f` fails, so the
resolver proceeds with `./x` and the restored fragment. -/
theorem c8_witness :
    require c8_fs (sanitize {}) 30 ["r".toList] "./x#f".toList Ctx.default =
      (match require_without_parse c8_fs (sanitize {}) 28 ["r".toList]
          ("./x".toList ++ "#f".toList)
          { Ctx.default with query := none, fragment := none } with
       | (.ok p, ctx2) => (.ok p, ctx2)
       | (.error _, ctx2) =>
         require_without_parse c8_fs (sanitize {}) 29 ["r".toList] "./x".toList
           { ctx2 with fragment := some "#f".toList }) :=
  c8_fragment_as_path c8_fs (sanitize {}) 28 ["r".toList] "./x#f".toList Ctx.default
    ⟨"./x".toList, none, some "#f".toList⟩ "#f".toList rfl rfl rfl

/-! ### Claim C2 -/

/-- File system for C2: only `/r/real.js` exists. -/
def c2_fs : FileSystemModel :=
  { files := [["r".toList, "real.js".toList]],
    dirs := [[], ["r".toList]] }

/-- Options for C2: alias entry `a` has the values `b` and `./real.js`;
entry `b` maps to a missing file, so resolving the specifier `b` ends in
`MatchedAliasNotFound`. -/
def c2_opts : ResolveOptions :=
  { «alias» := [("a".toList, [.path "b".toList, .path "./real.js".toList]),
                ("b".toList, [.path "./missing.js".toList])] }

/-- C2 counterexample: attempting the first value `b` of the matched entry
`a` fails with `MatchedAliasNotFound` — an error other than `NotFound` — yet
the error is not returned to the caller: the next value `./real.js` is tried
and the resolve succeeds. -/
theorem c2_counterexample :
    resolve c2_fs c2_opts 40 ["r".toList] "a".toList =
      .ok { path := ["r".toList, "real.js".toList], query := none,
            fragment := none, package_json := none, module_type := none }
    ∧ (require c2_fs (sanitize c2_opts) 38 ["r".toList] "b".toList Ctx.default).1 =
      .error (.matchedAliasNotFound "b".toList "b".toList)
    ∧ ∀ r : Resolution,
        (Except.ok r : Except ResolveError Resolution) ≠
          .error (.matchedAliasNotFound "b".toList "b".toList) :=
  ⟨rfl, rfl, fun _ => by simp⟩

/-- C2 amended: for every alias entry whose key matches the specifier, the
entry's values are tried in order; an attempt failing with `NotFound` **or
`MatchedAliasNotFound`** advances to the next value of the same entry; an
attempt failing with any other error propagates that error to the caller with
no later entries considered; a successful attempt is returned; and when the
entry's values are exhausted with at least one value actually attempted, the
result is `MatchedAliasNotFound` carrying the specifier and the alias key,
with no later entries considered.  The conjuncts: (1) a non-matching entry is
skipped; (2) an error from the value loop is the result of `load_alias`,
later entries untouched; (3) an exhausted loop with the attempted flag set
yields `MatchedAliasNotFound`, later entries untouched; (4) a found value is
returned; (5) a value yielding no match advances to the rest of the same
entry's values; (6) exhaustion preserves the attempted flag; (7) an attempt
whose `require` ends in `NotFound` advances; (8) likewise for
`MatchedAliasNotFound`; (9) an attempt whose `require` ends in any other
error propagates it; (10) an attempt whose `require` succeeds is returned. -/
theorem c2_amended :
    (∀ fs o fuel cp specifier k vs rest ctx,
      matchAliasKey k specifier = none →
      load_alias fs o (fuel + 1) cp specifier ((k, vs) :: rest) ctx =
        load_alias fs o fuel cp specifier rest ctx)
    ∧ (∀ fs o fuel cp specifier k vs rest ctx ak w e ctx2 ss,
      matchAliasKey k specifier = some (ak, w) →
      try_alias_values fs o fuel cp ak w vs specifier ctx false = (.error e, ctx2, ss) →
      load_alias fs o (fuel + 1) cp specifier ((k, vs) :: rest) ctx = (.error e, ctx2))
    ∧ (∀ fs o fuel cp specifier k vs rest ctx ak w ctx2,
      matchAliasKey k specifier = some (ak, w) →
      try_alias_values fs o fuel cp ak w vs specifier ctx false = (.ok none, ctx2, true) →
      load_alias fs o (fuel + 1) cp specifier ((k, vs) :: rest) ctx =
        (.error (.matchedAliasNotFound specifier ak), ctx2))
    ∧ (∀ fs o fuel cp specifier k vs rest ctx ak w p ctx2 ss,
      matchAliasKey k specifier = some (ak, w) →
      try_alias_values fs o fuel cp ak w vs specifier ctx false = (.ok (some p), ctx2, ss) →
      load_alias fs o (fuel + 1) cp specifier ((k, vs) :: rest) ctx = (.ok (some p), ctx2))
    ∧ (∀ fs o fuel cp ak w v vs specifier ctx ss ctx2 ss2,
      load_alias_value fs o fuel cp ak w v specifier ctx ss = (.ok none, ctx2, ss2) →
      try_alias_values fs o (fuel + 1) cp ak w (.path v :: vs) specifier ctx ss =
        try_alias_values fs o fuel cp ak w vs specifier ctx2 ss2)
    ∧ (∀ fs o fuel cp ak w specifier ctx ss,
      try_alias_values fs o (fuel + 1) cp ak w [] specifier ctx ss = (.ok none, ctx, ss))
    ∧ (∀ fs o fuel cp ns ctx x ctx2,
      require fs o fuel cp ns (ctx.with_fully_specified false) =
        (.error (.notFound x), ctx2) →
      load_alias_value_attempt fs o (fuel + 1) cp ns ctx = (.ok none, ctx2, true))
    ∧ (∀ fs o fuel cp ns ctx x y ctx2,
      require fs o fuel cp ns (ctx.with_fully_specified false) =
        (.error (.matchedAliasNotFound x y), ctx2) →
      load_alias_value_attempt fs o (fuel + 1) cp ns ctx = (.ok none, ctx2, true))
    ∧ (∀ fs o fuel cp ns ctx e ctx2,
      require fs o fuel cp ns (ctx.with_fully_specified false) = (.error e, ctx2) →
      (∀ x, e ≠ .notFound x) →
      (∀ x y, e ≠ .matchedAliasNotFound x y) →
      load_alias_value_attempt fs o (fuel + 1) cp ns ctx = (.error e, ctx2, true))
    ∧ (∀ fs o fuel cp ns ctx p ctx2,
      require fs o fuel cp ns (ctx.with_fully_specified false) = (.ok p, ctx2) →
      load_alias_value_attempt fs o (fuel + 1) cp ns ctx = (.ok (some p), ctx2, true)) := by
  refine ⟨?_, ?_, ?_, ?_, ?_, ?_, ?_, ?_, ?_, ?_⟩
  · intro fs o fuel cp specifier k vs rest ctx hm
    simp only [load_alias, hm]
  · intro fs o fuel cp specifier k vs rest ctx ak w e ctx2 ss hm ht
    simp only [load_alias, hm, ht]
  · intro fs o fuel cp specifier k vs rest ctx ak w ctx2 hm ht
    simp only [load_alias, hm, ht, if_true]
  · intro fs o fuel cp specifier k vs rest ctx ak w p ctx2 ss hm ht
    simp only [load_alias, hm, ht]
  · intro fs o fuel cp ak w v vs specifier ctx ss ctx2 ss2 hv
    simp only [try_alias_values, hv]
  · intro fs o fuel cp ak w specifier ctx ss
    simp only [try_alias_values]
  · intro fs o fuel cp ns ctx x ctx2 hreq
    unfold load_alias_value_attempt
    dsimp only
    rw [hreq]
  · intro fs o fuel cp ns ctx x y ctx2 hreq
    unfold load_alias_value_attempt
    dsimp only
    rw [hreq]
  · intro fs o fuel cp ns ctx e ctx2 hreq h1 h2
    unfold load_alias_value_attempt
    dsimp only
    rw [hreq]
    cases e
    case notFound x => exact absurd rfl (h1 x)
    case matchedAliasNotFound x y => exact absurd rfl (h2 x y)
    all_goals rfl
  · intro fs o fuel cp ns ctx p ctx2 hreq
    unfold load_alias_value_attempt
    dsimp only
    rw [hreq]

/-- C2 amended, instantiated: skipping at a non-matching key; propagation of
an `Ignored` loop result; the stop with `MatchedAliasNotFound`; a found
value; the advance past a non-matching wildcard value; exhaustion; and the
four attempt classifications, with `require` outcomes computed on the C2 and
C5 scenarios. -/
theorem c2_amended_witness :
    load_alias c2_fs c2_opts 11 ["r".toList] "zz".toList
        [("a".toList, [.path "b".toList])] Ctx.default =
      load_alias c2_fs c2_opts 10 ["r".toList] "zz".toList [] Ctx.default
    ∧ load_alias c2_fs c2_opts 11 ["r".toList] "a".toList
        (("a".toList, [.ignore]) :: [("zz".toList, [.ignore])]) Ctx.default =
      (.error (.ignored ["r".toList, "a".toList]), Ctx.default)
    ∧ load_alias {} c2_opts 21 ["r".toList] "b".toList
        (("b".toList, [.path "./missing.js".toList]) :: [("zz".toList, [.ignore])])
        Ctx.default =
      (.error (.matchedAliasNotFound "b".toList "b".toList), Ctx.default)
    ∧ load_alias c2_fs (sanitize c2_opts) 31 ["r".toList] "a".toList
        (("a".toList, [.path "./real.js".toList]) :: [("zz".toList, [.ignore])])
        Ctx.default =
      (.ok (some ["r".toList, "real.js".toList]), Ctx.default)
    ∧ try_alias_values c2_fs c2_opts 11 ["r".toList] "p*".toList true
        [.path "./v".toList] "qq".toList Ctx.default false =
      try_alias_values c2_fs c2_opts 10 ["r".toList] "p*".toList true []
        "qq".toList Ctx.default false
    ∧ try_alias_values c2_fs c2_opts 11 ["r".toList] "a".toList false []
        "a".toList Ctx.default true = (.ok none, Ctx.default, true)
    ∧ load_alias_value_attempt {} {} 21 ["r".toList] "zz".toList Ctx.default =
      (.ok none, Ctx.default, true)
    ∧ load_alias_value_attempt c2_fs (sanitize c2_opts) 31 ["r".toList] "b".toList
        Ctx.default = (.ok none, Ctx.default, true)
    ∧ load_alias_value_attempt c5_fs (sanitize c5_opts_ignore) 31 ["r".toList]
        "#lib/x".toList Ctx.default =
      (.error (.ignored ["r".toList, "#lib".toList, "*".toList]), Ctx.default, true)
    ∧ load_alias_value_attempt c2_fs (sanitize {}) 31 ["r".toList]
        "./real.js".toList Ctx.default =
      (.ok (some ["r".toList, "real.js".toList]), Ctx.default, true) := by
  refine ⟨?_, ?_, ?_, ?_, ?_, ?_, ?_, ?_, ?_, ?_⟩
  · apply c2_amended.1
    rfl
  · apply c2_amended.2.1
    · rfl
    · rfl
  · apply c2_amended.2.2.1
    · rfl
    · rfl
  · apply c2_amended.2.2.2.1
    · rfl
    · rfl
  · apply c2_amended.2.2.2.2.1
    rfl
  · apply c2_amended.2.2.2.2.2.1
  · apply c2_amended.2.2.2.2.2.2.1
    rfl
  · apply c2_amended.2.2.2.2.2.2.2.1
    rfl
  · apply c2_amended.2.2.2.2.2.2.2.2.1
    · rfl
    · simp
    · simp
  · apply c2_amended.2.2.2.2.2.2.2.2.2
    rfl

/-! ### Claim C3 -/

/-- Options for C3: a tsconfig whose `paths` map the specifier `./x` to the
candidate `/tc/cand`, and a single extension. -/
def c3_opts : ResolveOptions :=
  { tsconfig := some { paths := [("./x".toList, [["tc".toList, "cand".toList]])] },
    extensions := [".js".toList] }

/-- File system for C3: the file `/r/x.js`; the tsconfig candidate `/tc/cand`
does not exist, so trying it probes and misses. -/
def c3_fs : FileSystemModel :=
  { files := [["r".toList, "x.js".toList]], dirs := [[], ["r".toList]] }

/-- C3 counterexample: during `resolve_with_context("/r", "./x")` the
tsconfig-paths step probes the candidate `/tc/cand` — running the very same
inner call with a recording context shows the probe is recorded — but
`require_without_parse` (lib.rs 357) hands that step a fresh
`Ctx::default()` whose dependency sets are discarded, so `/tc/cand` appears
in neither `file_dependencies` nor `missing_dependencies` at the end of the
call, although the claim requires every probe (explicitly including
tsconfig-paths probes) to be in one of the two sets. -/
theorem c3_counterexample :
    ((load_tsconfig_paths c3_fs (sanitize c3_opts) 39 ["r".toList] "./x".toList
        Ctx.default.init_file_dependencies).2.missing_dependencies.getD
        []).contains ["tc".toList, "cand".toList] = true
    ∧ (resolve_with_context c3_fs c3_opts 40 ["r".toList] "./x".toList {}).1 =
      .ok { path := ["r".toList, "x.js".toList], query := none, fragment := none,
            package_json := none, module_type := none }
    ∧ ((resolve_with_context c3_fs c3_opts 40 ["r".toList] "./x".toList
        {}).2.file_dependencies).contains ["tc".toList, "cand".toList] = false
    ∧ ((resolve_with_context c3_fs c3_opts 40 ["r".toList] "./x".toList
        {}).2.missing_dependencies).contains ["tc".toList, "cand".toList] = false :=
  ⟨rfl, rfl, rfl, rfl⟩

/-- C3 amended: at the end of `resolve_with_context` the two sets are the
caller's sets extended with exactly the dependencies recorded in the per-call
context during the resolve (paths observed to exist into
`file_dependencies`, paths probed and absent into `missing_dependencies`);
probes made while trying tsconfig-paths candidates are excluded, because
`require_without_parse` runs that step on a fresh default context and
discards everything but its value: whatever the tsconfig-paths step returns,
the caller's context is passed on unchanged. -/
theorem c3_amended :
    (∀ fs o fuel d s rc,
      (resolve_with_context fs o fuel d s rc).2.file_dependencies =
        rc.file_dependencies ++
          (resolve_impl fs (sanitize o) fuel d s
            Ctx.default.init_file_dependencies).2.file_dependencies.getD []
      ∧ (resolve_with_context fs o fuel d s rc).2.missing_dependencies =
        rc.missing_dependencies ++
          (resolve_impl fs (sanitize o) fuel d s
            Ctx.default.init_file_dependencies).2.missing_dependencies.getD [])
    ∧ (∀ fs o fuel cp s ctx p,
      (load_tsconfig_paths fs o fuel cp s Ctx.default).1 = .ok (some p) →
      require_without_parse fs o (fuel + 1) cp s ctx = (.ok p, ctx))
    ∧ (∀ fs o fuel cp s ctx e,
      (load_tsconfig_paths fs o fuel cp s Ctx.default).1 = .error e →
      require_without_parse fs o (fuel + 1) cp s ctx = (.error e, ctx)) := by
  refine ⟨?_, ?_, ?_⟩
  · intro fs o fuel d s rc
    exact ⟨rfl, rfl⟩
  · intro fs o fuel cp s ctx p hts
    simp only [require_without_parse, hts]
  · intro fs o fuel cp s ctx e hts
    simp only [require_without_parse, hts]

/-- File system for the C3 witness: the tsconfig candidate `/tc/cand`
exists as a file. -/
def c3w_fs : FileSystemModel :=
  { files := [["tc".toList, "cand".toList]], dirs := [[], ["tc".toList]] }

/-- Options for the C3 witness, error case: the candidate path is aliased to
`Ignore`, so the tsconfig-paths step itself errors. -/
def c3e_opts : ResolveOptions :=
  sanitize { tsconfig := c3_opts.tsconfig,
             «alias» := [("/tc/cand".toList, [.ignore])] }

/-- A caller context with a pre-existing recorded dependency, to exhibit that
the tsconfig-paths step passes it through untouched. -/
def c3_ctx : Ctx :=
  { file_dependencies := some [["q".toList]], missing_dependencies := some [] }

/-- C3 amended, instantiated: the union equation on the C3 scenario; a
tsconfig-paths hit returned with the caller's context unchanged; and a
tsconfig-paths error returned with the caller's context unchanged. -/
theorem c3_amended_witness :
    ((resolve_with_context c3_fs c3_opts 40 ["r".toList] "./x".toList {}).2.file_dependencies =
      ([] : List Path) ++
        (resolve_impl c3_fs (sanitize c3_opts) 40 ["r".toList] "./x".toList
          Ctx.default.init_file_dependencies).2.file_dependencies.getD []
      ∧ (resolve_with_context c3_fs c3_opts 40 ["r".toList] "./x".toList {}).2.missing_dependencies =
        ([] : List Path) ++
          (resolve_impl c3_fs (sanitize c3_opts) 40 ["r".toList] "./x".toList
            Ctx.default.init_file_dependencies).2.missing_dependencies.getD [])
    ∧ require_without_parse c3w_fs (sanitize c3_opts) 31 ["r".toList] "./x".toList
        c3_ctx = (.ok ["tc".toList, "cand".toList], c3_ctx)
    ∧ require_without_parse c3w_fs c3e_opts 31 ["r".toList] "./x".toList c3_ctx =
      (.error (.ignored ["tc".toList, "cand".toList, "tc".toList, "cand".toList]),
        c3_ctx) :=
  ⟨c3_amended.1 c3_fs c3_opts 40 ["r".toList] "./x".toList {},
   c3_amended.2.1 c3w_fs (sanitize c3_opts) 30 ["r".toList] "./x".toList c3_ctx
     ["tc".toList, "cand".toList] rfl,
   c3_amended.2.2 c3w_fs c3e_opts 30 ["r".toList] "./x".toList c3_ctx
     (.ignored ["tc".toList, "cand".toList, "tc".toList, "cand".toList]) rfl⟩

/-! ### Claim C6 -/

/-- Options for the C6 counterexample: a fallback alias whose value is
`Ignore`, so the fallback attempt itself errors. -/
def c6_opts : ResolveOptions := { fallback := [("x".toList, [.ignore])] }

/-- Options for the C6 witness, ignore case: the resolved file path `/r/x` is
aliased to `Ignore`, so the primary relative branch fails with the terminal
`Ignored`; a fallback that could resolve is configured but never consulted. -/
def c6a_opts : ResolveOptions :=
  sanitize { «alias» := [("/r/x".toList, [.ignore])],
             fallback := [("./x".toList, [.path "./real.js".toList])] }

/-- Options for the C6 witness, fallback-success case. -/
def c6b_opts : ResolveOptions :=
  sanitize { fallback := [("x".toList, [.path "./real.js".toList])] }

/-- C6 counterexample: the primary bare branch fails with `NotFound("x")` (the
original error), the fallback alias `x -> Ignore` is then tried, and the call
returns the fallback's `Ignored(/r/x)` error — not the original error as the
claim demands. -/
theorem c6_counterexample :
    resolve {} c6_opts 40 ["r".toList] "x".toList =
      .error (.ignored ["r".toList, "x".toList])
    ∧ require_dispatch {} (sanitize c6_opts) 38 ["r".toList] "x".toList Ctx.default =
      .ok (.error (.notFound "x".toList), Ctx.default)
    ∧ (ResolveError.ignored ["r".toList, "x".toList] ≠ .notFound "x".toList) :=
  ⟨rfl, rfl, by decide⟩

/-- C6 amended: when the primary branch (absolute, relative, hash or bare —
the dispatch of `require_without_parse`) fails: an `Ignored` failure is
returned immediately and the fallback aliases are never consulted; for any
other error the fallback aliases are tried and (1) a fallback success is
returned, (2) a fallback non-match returns the original error, and (3) an
error from the fallback attempt itself (for example `Ignored` or
`MatchedAliasNotFound` raised by a fallback alias) is returned instead of the
original error. -/
theorem c6_amended :
    ∀ fs o fuel cp s ctx ctx1 e ctx2,
      (load_tsconfig_paths fs o fuel cp s Ctx.default).1 = .ok none →
      load_alias fs o fuel cp s o.«alias» ctx = (.ok none, ctx1) →
      hasPre "file://".toList s = false →
      require_dispatch fs o fuel cp s ctx1 = .ok (.error e, ctx2) →
      ((e.is_ignore = true →
        require_without_parse fs o (fuel + 1) cp s ctx = (.error e, ctx2))
      ∧ (∀ p ctx3, e.is_ignore = false →
        load_alias fs o fuel cp s o.fallback ctx2 = (.ok (some p), ctx3) →
        require_without_parse fs o (fuel + 1) cp s ctx = (.ok p, ctx3))
      ∧ (∀ ctx3, e.is_ignore = false →
        load_alias fs o fuel cp s o.fallback ctx2 = (.ok none, ctx3) →
        require_without_parse fs o (fuel + 1) cp s ctx = (.error e, ctx3))
      ∧ (∀ e2 ctx3, e.is_ignore = false →
        load_alias fs o fuel cp s o.fallback ctx2 = (.error e2, ctx3) →
        require_without_parse fs o (fuel + 1) cp s ctx = (.error e2, ctx3))) := by
  intro fs o fuel cp s ctx ctx1 e ctx2 hts hal hfile hdisp
  have hurl : fileUrlRewrite s = .ok s := by
    unfold fileUrlRewrite
    rw [hfile]
    exact rfl
  refine ⟨?_, ?_, ?_, ?_⟩
  · intro hig
    simp only [require_without_parse, hts, hal, hurl, hdisp, hig, if_true]
  · intro p ctx3 hig hfb
    simp only [require_without_parse, hts, hal, hurl, hdisp, hig, hfb,
      Bool.false_eq_true, if_false]
  · intro ctx3 hig hfb
    simp only [require_without_parse, hts, hal, hurl, hdisp, hig, hfb,
      Bool.false_eq_true, if_false]
  · intro e2 ctx3 hig hfb
    simp only [require_without_parse, hts, hal, hurl, hdisp, hig, hfb,
      Bool.false_eq_true, if_false]

/-- C6 amended, instantiated: an `Ignored` primary failure is returned with
the configured fallback untouched; a fallback success replaces a `NotFound`;
an empty fallback propagates the original `NotFound`; and an `Ignored`
fallback error replaces the original error. -/
theorem c6_amended_witness :
    require_without_parse c2_fs c6a_opts 31 ["r".toList] "./x".toList Ctx.default =
      (.error (.ignored ["r".toList, "x".toList, "r".toList, "x".toList]),
        Ctx.default)
    ∧ require_without_parse c2_fs c6b_opts 31 ["r".toList] "x".toList Ctx.default =
      (.ok ["r".toList, "real.js".toList], Ctx.default)
    ∧ require_without_parse {} (sanitize {}) 31 ["r".toList] "x".toList Ctx.default =
      (.error (.notFound "x".toList), Ctx.default)
    ∧ require_without_parse {} (sanitize c6_opts) 31 ["r".toList] "x".toList
        Ctx.default =
      (.error (.ignored ["r".toList, "x".toList]), Ctx.default) := by
  refine ⟨?_, ?_, ?_, ?_⟩
  · exact (c6_amended c2_fs c6a_opts 30 ["r".toList] "./x".toList Ctx.default
      Ctx.default _ Ctx.default rfl rfl rfl rfl).1 rfl
  · exact (c6_amended c2_fs c6b_opts 30 ["r".toList] "x".toList Ctx.default
      Ctx.default _ Ctx.default rfl rfl rfl rfl).2.1 _ Ctx.default rfl rfl
  · exact (c6_amended {} (sanitize {}) 30 ["r".toList] "x".toList Ctx.default
      Ctx.default _ Ctx.default rfl rfl rfl rfl).2.2.1 Ctx.default rfl rfl
  · exact (c6_amended {} (sanitize c6_opts) 30 ["r".toList] "x".toList Ctx.default
      Ctx.default _ Ctx.default rfl rfl rfl rfl).2.2.2 _ Ctx.default rfl rfl

/-- C7 amended, instantiated: the tie direction at `"./a/"` versus `"./a*"`,
reflexivity at `"./a*"`, swap-consistency at `"./a*"` versus `"./b*"`, and
transitivity at `"./ab*"`, `"./a*"`, `"./a*"`. -/
theorem c7_amended_witness :
    (pattern_key_compare "./a/".toList "./a*".toList = .gt
      ∧ pattern_key_compare "./a*".toList "./a/".toList = .lt)
    ∧ pattern_key_compare "./a*".toList "./a*".toList = .eq
    ∧ pattern_key_compare "./b*".toList "./a*".toList =
        (pattern_key_compare "./a*".toList "./b*".toList).swap
    ∧ pattern_key_compare "./ab*".toList "./a*".toList ≠ .gt :=
  ⟨c7_amended.1 _ _ (by decide) (by decide) (by decide) (by decide),
   c7_amended.2.1 _ (by decide),
   c7_amended.2.2.1 _ _ (by decide) (by decide),
   c7_amended.2.2.2 "./ab*".toList "./a*".toList "./a*".toList
     (by decide) (by decide) (by decide) (by decide) (by decide)⟩

end Oxc
